import Mathlib

/-!
Shallow embedding of the two-phase-commit coordinator of `distribute-tx`
(`internal/coordinator/coordinator.go`, `internal/participant/participant.go`,
`internal/model/transaction.go`).

Modelling conventions:
* The Transaction Log Store (GORM database) is a pure state `DBState` holding
  the `distributed_transactions` and `transaction_participants` tables as lists.
* Store writes can fail (the database being unreachable); this is modelled by a
  fault queue `faults : List (Option String)`: every store write consumes one
  entry, `some e` meaning the driver reports error `e`, `none` meaning the
  write reaches the table.  An exhausted queue means no failure.  Reads do not
  consume faults; a read fails exactly when the record is absent (GORM `First`).
* `time.Now()` is modelled by an explicit `now : Nat` argument; `uuid.New()`
  by an explicit `xid` argument to `coordBegin`.
* The fan-out goroutines of `Prepare`/`Commit`/`Rollback` write to disjoint
  map keys and are joined by a `WaitGroup` barrier before any result is read;
  they are modelled by sequential iteration in participant-registration order.
  Go's randomised map iteration when selecting `firstError` is determinised to
  the first failing participant in that same order; theorems only rely on the
  selected error being one of the failing results.
* A participant's prepare `action func(*gorm.DB) error` is characterised by
  its returned error, and the handle obtained from `db.Begin()` by the future
  outcomes of `Commit`/`Rollback` on it; both are supplied per participant
  name through an environment `env : String → Option (LocalTx × Option String)`
  (`none` = no action in the `participantActions` map).
-/

namespace DistributeTx

/-- `model.TransactionStatus` (transaction.go lines 13-20). -/
inductive TransactionStatus where
  | created
  | preparing
  | prepared
  | committed
  | rolledback
  | failed
deriving DecidableEq, Repr

/-- The string value of each `TransactionStatus` constant (transaction.go lines 13-20),
used by `Commit`'s error message. -/
def statusStr : TransactionStatus → String
  | .created => "created"
  | .preparing => "preparing"
  | .prepared => "prepared"
  | .committed => "committed"
  | .rolledback => "rolledback"
  | .failed => "failed"

/-- `model.ParticipantStatus` (transaction.go lines 41-47). -/
inductive ParticipantStatus where
  | registered
  | prepared
  | committed
  | rolledback
  | failed
deriving DecidableEq, Repr

/-- `model.Transaction` (transaction.go lines 23-30); `gorm.Model` bookkeeping
columns are elided, `XID` carries a unique index. -/
structure Transaction where
  xid : String
  status : TransactionStatus
  startTime : Nat
  finishTime : Option Nat
  description : String
deriving DecidableEq, Repr

/-- `model.TransactionParticipant` (transaction.go lines 50-56); its `xid`
column carries a plain (non-unique) index. -/
structure TransactionParticipant where
  xid : String
  name : String
  status : ParticipantStatus
  resourceID : String
deriving DecidableEq, Repr

/-- `model.OperationResult` (transaction.go lines 64-68); `Err` is an
`Option String` (nil error = `none`). -/
structure OperationResult where
  success : Bool
  err : Option String
  message : String
deriving DecidableEq, Repr

/-- The Transaction Log Store: both tables plus the write-fault queue. -/
structure DBState where
  txs : List Transaction
  parts : List TransactionParticipant
  faults : List (Option String)
deriving DecidableEq, Repr

/-- Consume the next write-fault entry (none when the queue is exhausted). -/
def DBState.popFault (s : DBState) : Option String × DBState :=
  match s.faults with
  | [] => (none, s)
  | f :: fs => (f, { s with faults := fs })

/-- `TransactionCoordinator.updateTransactionStatus` (coordinator.go lines
300-319): a GORM `Update` on all rows matching `xid`; a driver error is
returned as-is, and `RowsAffected == 0` yields "transaction not found". -/
def updateTransactionStatus (s : DBState) (xid : String) (st : TransactionStatus) :
    Option String × DBState :=
  match s.popFault with
  | (some e, s1) => (some e, s1)
  | (none, s1) =>
    if s1.txs.any (fun t => t.xid == xid) then
      (none, { s1 with
        txs := s1.txs.map (fun t => if t.xid == xid then { t with status := st } else t) })
    else
      (some "transaction not found", s1)

/-- `TransactionCoordinator.recordFinishTime` (coordinator.go lines 332-344):
updates `finish_time` on all rows matching `xid`; only the driver error is
returned — no `RowsAffected` check. -/
def recordFinishTime (s : DBState) (xid : String) (now : Nat) :
    Option String × DBState :=
  match s.popFault with
  | (some e, s1) => (some e, s1)
  | (none, s1) =>
    (none, { s1 with
      txs := s1.txs.map (fun t => if t.xid == xid then { t with finishTime := some now } else t) })

/-- `TransactionCoordinator.getTransactionStatus` via `GetTransaction`
(coordinator.go lines 270-282, 322-329): GORM `First` on rows matching `xid`;
`none` models the record-not-found error. -/
def getTransactionStatus (s : DBState) (xid : String) : Option TransactionStatus :=
  (s.txs.find? (fun t => t.xid == xid)).map (fun t => t.status)

/-- The stored `finish_time` of the first row matching `xid` (read-only
projection used to state the `finishTime` claims). -/
def getFinishTime (s : DBState) (xid : String) : Option (Option Nat) :=
  (s.txs.find? (fun t => t.xid == xid)).map (fun t => t.finishTime)

/-- `Participant.UpdateParticipantStatus` (participant.go lines 92-112): a GORM
`Update` on all rows matching `xid AND name`; driver error returned as-is,
`RowsAffected == 0` yields "participant record not found". -/
def updateParticipantStatus (s : DBState) (xid nm : String) (st : ParticipantStatus) :
    Option String × DBState :=
  match s.popFault with
  | (some e, s1) => (some e, s1)
  | (none, s1) =>
    if s1.parts.any (fun r => r.xid == xid && r.name == nm) then
      (none, { s1 with
        parts := s1.parts.map (fun r =>
          if r.xid == xid && r.name == nm then { r with status := st } else r) })
    else
      (some "participant record not found", s1)

/-- The local transactional handle returned by `db.Begin()`: a `*gorm.DB`
characterised by the outcomes its `Commit()` and `Rollback()` will report. -/
structure LocalTx where
  commitErr : Option String
  rollbackErr : Option String
deriving DecidableEq, Repr

/-- `participant.Participant` (participant.go lines 14-19); the `DBManager`
field is elided (connections are obtained through the store model). -/
structure Participant where
  name : String
  resourceID : String
  localTx : Option LocalTx
deriving DecidableEq, Repr

/-- `Participant.Register` (participant.go lines 31-59): inserts a
`TransactionParticipant` row with status `registered`; the table has no
uniqueness constraint, so the insert fails only on a driver fault. -/
def Participant.register (p : Participant) (xid : String) (s : DBState) :
    OperationResult × DBState :=
  match s.popFault with
  | (some e, s1) =>
    ({ success := false, err := some e,
       message := "Failed to register participant " ++ p.name ++ " to transaction " ++ xid },
     s1)
  | (none, s1) =>
    ({ success := true, err := none,
       message := "Participant " ++ p.name ++ " successfully registered to transaction " ++ xid },
     { s1 with parts := s1.parts ++
        [{ xid := xid, name := p.name, status := ParticipantStatus.registered,
           resourceID := p.resourceID }] })

/-- `Participant.Prepare` (participant.go lines 62-89): assigns the fresh
handle to `p.LocalTx`, runs the action; on an action error the handle is
rolled back and failure is returned, but `p.LocalTx` is left pointing at the
(rolled-back) handle — the source never clears it on this path. -/
def Participant.prepare (p : Participant) (xid : String) (newTx : LocalTx)
    (actionErr : Option String) : OperationResult × Participant :=
  match actionErr with
  | some e =>
    ({ success := false, err := some e,
       message := "Prepare phase failed for participant " ++ p.name ++ " in transaction " ++ xid },
     { p with localTx := some newTx })
  | none =>
    ({ success := true, err := none,
       message := "Prepare phase successful for participant " ++ p.name ++ " in transaction " ++ xid },
     { p with localTx := some newTx })

/-- `Participant.Commit` (participant.go lines 115-152): fails fast with "no
active local transaction" when no handle is open (no store access); on handle
commit failure writes status `failed` (that write's error is discarded) and
keeps the handle; on status-write failure after a successful handle commit the
handle is also kept; only the fully successful path clears `LocalTx`. -/
def Participant.commit (p : Participant) (xid : String) (s : DBState) :
    OperationResult × Participant × DBState :=
  match p.localTx with
  | none =>
    ({ success := false, err := some "no active local transaction",
       message := "No active transaction found for participant " ++ p.name }, p, s)
  | some tx =>
    match tx.commitErr with
    | some e =>
      match updateParticipantStatus s xid p.name ParticipantStatus.failed with
      | (_, s1) =>
        ({ success := false, err := some e,
           message := "Commit failed for participant " ++ p.name ++ " in transaction " ++ xid },
         p, s1)
    | none =>
      match updateParticipantStatus s xid p.name ParticipantStatus.committed with
      | (some e, s1) =>
        ({ success := false, err := some e,
           message := "Failed to update participant status after commit for " ++ p.name },
         p, s1)
      | (none, s1) =>
        ({ success := true, err := none,
           message := "Transaction committed successfully for participant " ++ p.name ++
             " in transaction " ++ xid },
         { p with localTx := none }, s1)

/-- `Participant.Rollback` (participant.go lines 155-192): symmetric to
`Participant.commit`, using `failed`/`rolledback`. -/
def Participant.rollback (p : Participant) (xid : String) (s : DBState) :
    OperationResult × Participant × DBState :=
  match p.localTx with
  | none =>
    ({ success := false, err := some "no active local transaction",
       message := "No active transaction found for participant " ++ p.name }, p, s)
  | some tx =>
    match tx.rollbackErr with
    | some e =>
      match updateParticipantStatus s xid p.name ParticipantStatus.failed with
      | (_, s1) =>
        ({ success := false, err := some e,
           message := "Rollback failed for participant " ++ p.name ++ " in transaction " ++ xid },
         p, s1)
    | none =>
      match updateParticipantStatus s xid p.name ParticipantStatus.rolledback with
      | (some e, s1) =>
        ({ success := false, err := some e,
           message := "Failed to update participant status after rollback for " ++ p.name },
         p, s1)
      | (none, s1) =>
        ({ success := true, err := none,
           message := "Transaction rolled back successfully for participant " ++ p.name ++
             " in transaction " ++ xid },
         { p with localTx := none }, s1)

/-- `coordinator.TransactionCoordinator` (coordinator.go lines 18-24);
`DBManager`, `Timeout` and the mutex are elided. -/
structure TransactionCoordinator where
  serviceName : String
  participants : List Participant
deriving DecidableEq, Repr

/-- `TransactionCoordinator.RegisterParticipant` (coordinator.go lines 37-42). -/
def TransactionCoordinator.registerParticipant (c : TransactionCoordinator)
    (p : Participant) : TransactionCoordinator :=
  { c with participants := c.participants ++ [p] }

/-- `TransactionCoordinator.Begin` (coordinator.go lines 45-72): creates the
`Transaction` row with status `created` and nil `FinishTime`; the unique index
on `xid` makes a duplicate insert fail. -/
def coordBegin (s : DBState) (xid : String) (now : Nat) (descr : String) :
    Option String × DBState :=
  match s.popFault with
  | (some e, s1) => (some e, s1)
  | (none, s1) =>
    if s1.txs.any (fun t => t.xid == xid) then
      (some "failed to create transaction record: duplicate xid", s1)
    else
      (none, { s1 with txs := s1.txs ++
        [{ xid := xid, status := TransactionStatus.created, startTime := now,
           finishTime := none, description := descr }] })

/-- The body of one of `Prepare`'s fan-out goroutines (coordinator.go lines
89-119): `Register` (a failure is recorded as the literal
`OperationResult{Success: false, Err: err}` of line 96), then the
`participantActions` lookup (a miss records the literal result of lines
104-110 with "no action defined for participant"), then `Participant.Prepare`
whose result is stored as returned (line 117). -/
def prepStep (xid : String) (env : String → Option (LocalTx × Option String))
    (p : Participant) (s : DBState) : OperationResult × Participant × DBState :=
  match p.register xid s with
  | (r, s1) =>
    if r.success then
      match env p.name with
      | none =>
        ({ success := false, err := some "no action defined for participant",
           message := "" }, p, s1)
      | some (newTx, actionErr) =>
        match p.prepare xid newTx actionErr with
        | (r2, p') => (r2, p', s1)
    else
      ({ success := false, err := r.err, message := "" }, p, s1)

/-- The prepare fan-out (coordinator.go lines 86-123), iterated in
registration order; returns the results in that order, the updated
participants, and the store. -/
def prepareLoop (xid : String) (env : String → Option (LocalTx × Option String)) :
    List Participant → DBState → List OperationResult × List Participant × DBState
  | [], s => ([], [], s)
  | p :: ps, s =>
    match prepStep xid env p s with
    | (r, p', s1) =>
      match prepareLoop xid env ps s1 with
      | (rs, ps', s2) => (r :: rs, p' :: ps', s2)

/-- `firstError` selection (coordinator.go lines 126-135): the error of the
first unsuccessful result. -/
def firstFailingErr (rs : List OperationResult) : Option String :=
  match rs.find? (fun r => !r.success) with
  | some r => r.err
  | none => none

/-- `TransactionCoordinator.Prepare` (coordinator.go lines 75-149).  Note the
failure branch at line 146 discards the error of the `failed` status write. -/
def TransactionCoordinator.prepare (c : TransactionCoordinator) (xid : String)
    (env : String → Option (LocalTx × Option String)) (s : DBState) :
    (Bool × Option String) × TransactionCoordinator × DBState :=
  match updateTransactionStatus s xid TransactionStatus.preparing with
  | (some e, s1) => ((false, some e), c, s1)
  | (none, s1) =>
    match prepareLoop xid env c.participants s1 with
    | (results, ps', s2) =>
      if results.all (fun r => r.success) then
        match updateTransactionStatus s2 xid TransactionStatus.prepared with
        | (some e, s3) => ((false, some e), { c with participants := ps' }, s3)
        | (none, s3) => ((true, none), { c with participants := ps' }, s3)
      else
        match updateTransactionStatus s2 xid TransactionStatus.failed with
        | (_, s3) => ((false, firstFailingErr results), { c with participants := ps' }, s3)

/-- The commit fan-out (coordinator.go lines 168-184), in registration order;
the second return value of `Participant.Commit` is discarded (line 175). -/
def commitLoop (xid : String) :
    List Participant → DBState → List OperationResult × List Participant × DBState
  | [], s => ([], [], s)
  | p :: ps, s =>
    match p.commit xid s with
    | (r, p', s1) =>
      match commitLoop xid ps s1 with
      | (rs, ps', s2) => (r :: rs, p' :: ps', s2)

/-- `TransactionCoordinator.Commit` (coordinator.go lines 152-217).  The
status guard runs before any participant is contacted; on full success the
`recordFinishTime` error is only logged (lines 205-208); the failure branch
discards the error of the `failed` status write (line 214). -/
def TransactionCoordinator.commit (c : TransactionCoordinator) (xid : String)
    (now : Nat) (s : DBState) :
    (Bool × Option String) × TransactionCoordinator × DBState :=
  match getTransactionStatus s xid with
  | none => ((false, some "record not found"), c, s)
  | some st =>
    if st = TransactionStatus.prepared then
      match commitLoop xid c.participants s with
      | (results, ps', s1) =>
        if results.all (fun r => r.success) then
          match updateTransactionStatus s1 xid TransactionStatus.committed with
          | (some e, s2) => ((false, some e), { c with participants := ps' }, s2)
          | (none, s2) =>
            match recordFinishTime s2 xid now with
            | (_, s3) => ((true, none), { c with participants := ps' }, s3)
        else
          match updateTransactionStatus s1 xid TransactionStatus.failed with
          | (_, s2) => ((false, firstFailingErr results), { c with participants := ps' }, s2)
    else
      ((false, some ("transaction not in prepared state, current status: " ++ statusStr st)),
       c, s)

/-- The rollback fan-out (coordinator.go lines 237-250), in registration
order; as in the source, the collected results are never inspected. -/
def rollbackLoop (xid : String) :
    List Participant → DBState → List OperationResult × List Participant × DBState
  | [], s => ([], [], s)
  | p :: ps, s =>
    match p.rollback xid s with
    | (r, p', s1) =>
      match rollbackLoop xid ps s1 with
      | (rs, ps', s2) => (r :: rs, p' :: ps', s2)

/-- `TransactionCoordinator.Rollback` (coordinator.go lines 220-267): fails
only when the status is `committed` (or the record is missing); otherwise fans
out, sets `rolledback` (that write's error IS propagated, lines 256-258), and
only logs a `recordFinishTime` error (lines 261-264). -/
def TransactionCoordinator.rollback (c : TransactionCoordinator) (xid : String)
    (now : Nat) (s : DBState) :
    (Bool × Option String) × TransactionCoordinator × DBState :=
  match getTransactionStatus s xid with
  | none => ((false, some "record not found"), c, s)
  | some st =>
    if st = TransactionStatus.committed then
      ((false, some "cannot rollback an already committed transaction"), c, s)
    else
      match rollbackLoop xid c.participants s with
      | (_, ps', s1) =>
        match updateTransactionStatus s1 xid TransactionStatus.rolledback with
        | (some e, s2) => ((false, some e), { c with participants := ps' }, s2)
        | (none, s2) =>
          match recordFinishTime s2 xid now with
          | (_, s3) => ((true, none), { c with participants := ps' }, s3)

/-- The combined failure condition of one participant's slice of the prepare
fan-out: its `Register` store write faulting, the action being absent from the
map, or the action failing.  `none` = that participant's slice succeeded. -/
def partFailureErr (fault : Option String)
    (a : Option (LocalTx × Option String)) : Option String :=
  match fault with
  | some e => some e
  | none =>
    match a with
    | none => some "no action defined for participant"
    | some (_, actionErr) => actionErr

/-- Default `OperationResult` used only as the out-of-range value of `List.getD`. -/
def dfltRes : OperationResult := { success := true, err := none, message := "" }

/-- Default `Participant` used only as the out-of-range value of `List.getD`. -/
def dfltPart : Participant := { name := "", resourceID := "", localTx := none }

/-!  Concrete scenario data used by counterexamples and witnesses.  -/

/-- A fresh handle whose commit and rollback both succeed. -/
def okTx : LocalTx := { commitErr := none, rollbackErr := none }

/-- A participant named "a" with no open handle. -/
def partA : Participant := { name := "a", resourceID := "r", localTx := none }

/-- An action environment defining a succeeding action for every participant. -/
def envAll : String → Option (LocalTx × Option String) := fun _ => some (okTx, none)

/-- An action environment defining no action for any participant. -/
def envMiss : String → Option (LocalTx × Option String) := fun _ => none

/-- A store holding one transaction "x" in status `created`, no participant
records, and a fault-free write queue. -/
def storeX : DBState :=
  { txs := [{ xid := "x", status := TransactionStatus.created, startTime := 0,
              finishTime := none, description := "" }],
    parts := [], faults := [] }

/-- A coordinator with the single registered participant `partA`. -/
def coordA : TransactionCoordinator := { serviceName := "svc", participants := [partA] }

/-- A coordinator with no registered participants. -/
def coordNone : TransactionCoordinator := { serviceName := "svc", participants := [] }

/-- First `Prepare` call of the duplicate-record scenario: `coordA` prepares
"x" on `storeX` with an action for every participant. -/
def dupRun1 : (Bool × Option String) × TransactionCoordinator × DBState :=
  coordA.prepare "x" envAll storeX

/-- Second `Prepare` call on the same xid, continuing from the first call's
coordinator and store. -/
def dupRun2 : (Bool × Option String) × TransactionCoordinator × DBState :=
  dupRun1.2.1.prepare "x" envAll dupRun1.2.2

/-- A store holding transaction "x" already in status `prepared`, with a
fault queue making the first store write succeed and the second one fail. -/
def storeFinishFault : DBState :=
  { txs := [{ xid := "x", status := TransactionStatus.prepared, startTime := 0,
              finishTime := none, description := "" }],
    parts := [], faults := [none, some "log store unreachable"] }

/-- The store `storeFinishFault` after a zero-participant `Commit`: the
status write reached the table, the finish-time write faulted and was
discarded, the fault queue is used up. -/
def storeAfterFinishFault : DBState :=
  { txs := [{ xid := "x", status := TransactionStatus.committed, startTime := 0,
              finishTime := none, description := "" }],
    parts := [], faults := [] }

/-- A store holding transaction "x" in status `prepared` with a fault-free
write queue. -/
def storePrepared : DBState :=
  { txs := [{ xid := "x", status := TransactionStatus.prepared, startTime := 0,
              finishTime := none, description := "" }],
    parts := [], faults := [] }

/-- `storeX` with a single explicitly-successful write-fault entry. -/
def store1F : DBState :=
  { txs := [{ xid := "x", status := TransactionStatus.created, startTime := 0,
              finishTime := none, description := "" }],
    parts := [], faults := [none] }

/-- `storeX` whose first store write is set to fail with "db down". -/
def storeBad : DBState :=
  { txs := [{ xid := "x", status := TransactionStatus.created, startTime := 0,
              finishTime := none, description := "" }],
    parts := [], faults := [some "db down"] }

/-- The `finish_time` column of the transaction table, row by row. -/
def listFinish (s : DBState) : List (Option Nat) := s.txs.map (fun t => t.finishTime)

/-! ### Generic list helpers -/

theorem getD_tail_eq {α : Type} (l : List α) (d : α) (i : Nat) :
    l.tail.getD i d = l.getD (i + 1) d := by
  cases l <;> simp [List.getD]

theorem drop_succ_eq_tail_drop {α : Type} (l : List α) (n : Nat) :
    l.drop (n + 1) = l.tail.drop n := by
  cases l <;> simp

theorem mem_exists_getD {α : Type} (d : α) :
    ∀ (l : List α) (a : α), a ∈ l → ∃ i, i < l.length ∧ l.getD i d = a := by
  intro l
  induction l with
  | nil => intro a ha; cases ha
  | cons x xs ih =>
    intro a ha
    rcases List.mem_cons.mp ha with h | h
    · exact ⟨0, by simp, by simp [h]⟩
    · rcases ih a h with ⟨i, hi, hg⟩
      exact ⟨i + 1, by simpa using Nat.succ_lt_succ hi, by simpa using hg⟩

theorem all_success_iff_getD (rs : List OperationResult) :
    rs.all (fun r => r.success) = true ↔
      ∀ i, i < rs.length → (rs.getD i dfltRes).success = true := by
  induction rs with
  | nil => simp
  | cons r rs ih =>
    simp only [List.all_cons, Bool.and_eq_true, List.length_cons]
    constructor
    · rintro ⟨hr, hall⟩ i hi
      cases i with
      | zero => simpa using hr
      | succ j => simpa using (ih.mp hall) j (by omega)
    · intro h
      refine ⟨by simpa using h 0 (by omega), ih.mpr ?_⟩
      intro j hj
      simpa using h (j + 1) (by omega)

theorem firstFailingErr_spec (rs : List OperationResult)
    (h : rs.all (fun r => r.success) = false) :
    ∃ r, r ∈ rs ∧ r.success = false ∧ firstFailingErr rs = r.err := by
  cases hf : rs.find? (fun r => !r.success) with
  | none =>
    exfalso
    have hall : ∀ r ∈ rs, ¬ ((!r.success) = true) := List.find?_eq_none.mp hf
    have hT : rs.all (fun r => r.success) = true := by
      rw [List.all_eq_true]
      intro r hr
      simpa using hall r hr
    rw [hT] at h
    cases h
  | some r =>
    refine ⟨r, List.mem_of_find?_eq_some hf, ?_, ?_⟩
    · simpa using List.find?_some hf
    · simp [firstFailingErr, hf]

/-! ### Transaction-table lemmas -/

theorem any_of_getStatus {s : DBState} {x : String} {st : TransactionStatus}
    (h : getTransactionStatus s x = some st) :
    s.txs.any (fun t => t.xid == x) = true := by
  unfold getTransactionStatus at h
  cases hf : s.txs.find? (fun t => t.xid == x) with
  | none => rw [hf] at h; cases h
  | some t =>
    have hp := List.find?_some hf
    exact List.any_eq_true.mpr ⟨t, List.mem_of_find?_eq_some hf, hp⟩

theorem find?_isSome_of_any {l : List Transaction} {x : String}
    (h : l.any (fun t => t.xid == x) = true) :
    ∃ t, l.find? (fun t => t.xid == x) = some t := by
  rcases List.any_eq_true.mp h with ⟨t, ht, hp⟩
  exact Option.isSome_iff_exists.mp (List.find?_isSome.mpr ⟨t, ht, hp⟩)

theorem find?_map_xid (f : Transaction → Transaction)
    (hf : ∀ t, (f t).xid = t.xid) (x : String) :
    ∀ l : List Transaction,
      (l.map f).find? (fun t => t.xid == x) = (l.find? (fun t => t.xid == x)).map f := by
  intro l
  induction l with
  | nil => simp
  | cons a l ih =>
    simp only [List.map_cons, List.find?_cons]
    have hxa : ((f a).xid == x) = (a.xid == x) := by rw [hf a]
    rw [hxa]
    cases h : (a.xid == x) with
    | true => simp
    | false => simpa using ih

theorem any_map_xid (f : Transaction → Transaction)
    (hf : ∀ t, (f t).xid = t.xid) (x : String) (l : List Transaction) :
    (l.map f).any (fun t => t.xid == x) = l.any (fun t => t.xid == x) := by
  induction l with
  | nil => simp
  | cons a l ih => simp [List.any_cons, hf, ih]

/-! ### `updateTransactionStatus` lemmas -/

theorem updStatus_ok {s : DBState} {x : String} (st : TransactionStatus)
    (h1 : s.faults.headD none = none)
    (h2 : s.txs.any (fun t => t.xid == x) = true) :
    updateTransactionStatus s x st =
      (none, { s with
        txs := s.txs.map (fun t => if t.xid == x then { t with status := st } else t),
        faults := s.faults.tail }) := by
  cases hf : s.faults with
  | nil => simp [updateTransactionStatus, DBState.popFault, hf, h2]
  | cons f fs =>
    rw [hf] at h1
    simp only [List.headD_cons] at h1
    subst h1
    simp [updateTransactionStatus, DBState.popFault, hf, h2]

theorem updStatus_fault {s : DBState} {x : String} {st : TransactionStatus}
    {e : String} {fs : List (Option String)} (h : s.faults = some e :: fs) :
    updateTransactionStatus s x st = (some e, { s with faults := fs }) := by
  simp [updateTransactionStatus, DBState.popFault, h]

theorem updStatus_parts (s : DBState) (x : String) (st : TransactionStatus) :
    (updateTransactionStatus s x st).2.parts = s.parts := by
  cases hf : s.faults with
  | nil =>
    by_cases h2 : s.txs.any (fun t => t.xid == x) <;>
      simp [updateTransactionStatus, DBState.popFault, hf, h2]
  | cons f fs =>
    cases f with
    | none =>
      by_cases h2 : s.txs.any (fun t => t.xid == x) <;>
        simp [updateTransactionStatus, DBState.popFault, hf, h2]
    | some e => simp [updateTransactionStatus, DBState.popFault, hf]

theorem statusMap_preserves_xid (x : String) (st : TransactionStatus) (t : Transaction) :
    (if t.xid == x then { t with status := st } else t).xid = t.xid := by
  split <;> rfl

theorem statusMap_preserves_finish (x : String) (st : TransactionStatus) (t : Transaction) :
    (if t.xid == x then { t with status := st } else t).finishTime = t.finishTime := by
  split <;> rfl

theorem finishMap_preserves_xid (x : String) (now : Nat) (t : Transaction) :
    (if t.xid == x then { t with finishTime := some now } else t).xid = t.xid := by
  split <;> rfl

theorem finishMap_preserves_status (x : String) (now : Nat) (t : Transaction) :
    (if t.xid == x then { t with finishTime := some now } else t).status = t.status := by
  split <;> rfl

theorem map_finish_of_preserve (f : Transaction → Transaction)
    (hf : ∀ t, (f t).finishTime = t.finishTime) (l : List Transaction) :
    (l.map f).map (fun t => t.finishTime) = l.map (fun t => t.finishTime) := by
  rw [List.map_map]
  apply List.map_congr_left
  intro t _
  exact hf t

theorem updStatus_notfound {s : DBState} {x : String} {st : TransactionStatus}
    (h1 : s.faults.headD none = none)
    (h2 : s.txs.any (fun t => t.xid == x) = false) :
    updateTransactionStatus s x st =
      (some "transaction not found", { s with faults := s.faults.tail }) := by
  cases hf : s.faults with
  | nil =>
    simp [updateTransactionStatus, DBState.popFault, hf, h2]
    conv_rhs => rw [← hf]
  | cons f fs =>
    rw [hf] at h1
    simp only [List.headD_cons] at h1
    subst h1
    simp [updateTransactionStatus, DBState.popFault, hf, h2]

theorem updStatus_cases (s : DBState) (x : String) :
    (∃ e fs, s.faults = some e :: fs) ∨
    (s.faults.headD none = none ∧ s.txs.any (fun t => t.xid == x) = false) ∨
    (s.faults.headD none = none ∧ s.txs.any (fun t => t.xid == x) = true) := by
  cases hf : s.faults with
  | nil =>
    cases h2 : s.txs.any (fun t => t.xid == x)
    · exact Or.inr (Or.inl ⟨by simp, rfl⟩)
    · exact Or.inr (Or.inr ⟨by simp, rfl⟩)
  | cons f fs =>
    cases f with
    | none =>
      cases h2 : s.txs.any (fun t => t.xid == x)
      · exact Or.inr (Or.inl ⟨by simp, rfl⟩)
      · exact Or.inr (Or.inr ⟨by simp, rfl⟩)
    | some e => exact Or.inl ⟨e, fs, rfl⟩

theorem updStatus_listFinish (s : DBState) (x : String) (st : TransactionStatus) :
    listFinish (updateTransactionStatus s x st).2 = listFinish s := by
  rcases updStatus_cases s x with ⟨e, fs, hf⟩ | ⟨h1, h2⟩ | ⟨h1, h2⟩
  · rw [updStatus_fault hf]; rfl
  · rw [updStatus_notfound h1 h2]; rfl
  · rw [updStatus_ok st h1 h2]
    exact map_finish_of_preserve _ (statusMap_preserves_finish x st) s.txs

theorem getStatus_upd_self {s s' : DBState} {x : String} {st : TransactionStatus}
    (h : updateTransactionStatus s x st = (none, s')) :
    getTransactionStatus s' x = some st := by
  rcases updStatus_cases s x with ⟨e, fs, hf⟩ | ⟨h1, h2⟩ | ⟨h1, h2⟩
  · rw [updStatus_fault hf] at h
    cases h
  · rw [updStatus_notfound h1 h2] at h
    cases h
  · rw [updStatus_ok st h1 h2] at h
    have hs' : s' = { s with
        txs := s.txs.map (fun t => if t.xid == x then { t with status := st } else t),
        faults := s.faults.tail } := by
      have h2' := congrArg Prod.snd h
      exact h2'.symm
    subst hs'
    unfold getTransactionStatus
    rw [find?_map_xid (fun t => if t.xid == x then { t with status := st } else t)
      (statusMap_preserves_xid x st) x]
    rcases find?_isSome_of_any h2 with ⟨t0, ht0⟩
    have hp := List.find?_some ht0
    have hp' : t0.xid = x := by simpa using hp
    rw [ht0]
    simp [hp']

/-! ### `recordFinishTime` lemmas -/

theorem finish_fault {s : DBState} {x : String} {now : Nat} {e : String}
    {fs : List (Option String)} (h : s.faults = some e :: fs) :
    recordFinishTime s x now = (some e, { s with faults := fs }) := by
  simp [recordFinishTime, DBState.popFault, h]

theorem finish_ok {s : DBState} (x : String) (now : Nat)
    (h1 : s.faults.headD none = none) :
    recordFinishTime s x now =
      (none, { s with
        txs := s.txs.map (fun t => if t.xid == x then { t with finishTime := some now } else t),
        faults := s.faults.tail }) := by
  cases hf : s.faults with
  | nil => simp [recordFinishTime, DBState.popFault, hf]
  | cons f fs =>
    rw [hf] at h1
    simp only [List.headD_cons] at h1
    subst h1
    simp [recordFinishTime, DBState.popFault, hf]

theorem fault_cases (s : DBState) :
    (∃ e fs, s.faults = some e :: fs) ∨ s.faults.headD none = none := by
  cases hf : s.faults with
  | nil => right; simp
  | cons f fs =>
    cases f with
    | none => right; simp
    | some e => left; exact ⟨e, fs, rfl⟩

theorem finish_preserves_status (s : DBState) (x : String) (now : Nat) (y : String) :
    getTransactionStatus (recordFinishTime s x now).2 y = getTransactionStatus s y := by
  rcases fault_cases s with ⟨e, fs, hf⟩ | h1
  · rw [finish_fault hf]; rfl
  · rw [finish_ok x now h1]
    unfold getTransactionStatus
    dsimp only
    rw [find?_map_xid (fun t => if t.xid == x then { t with finishTime := some now } else t)
      (finishMap_preserves_xid x now) y]
    cases hfind : s.txs.find? (fun t => t.xid == y) with
    | none => rfl
    | some t0 =>
      show some ((if t0.xid == x then { t0 with finishTime := some now } else t0).status)
        = some t0.status
      rw [finishMap_preserves_status x now t0]

theorem getFinish_finish_self {s : DBState} {x : String} (now : Nat)
    (h1 : s.faults.headD none = none)
    (h2 : s.txs.any (fun t => t.xid == x) = true) :
    getFinishTime (recordFinishTime s x now).2 x = some (some now) := by
  rw [finish_ok x now h1]
  unfold getFinishTime
  dsimp only
  rw [find?_map_xid (fun t => if t.xid == x then { t with finishTime := some now } else t)
    (finishMap_preserves_xid x now) x]
  rcases find?_isSome_of_any h2 with ⟨t0, ht0⟩
  have hp : t0.xid = x := by simpa using List.find?_some ht0
  rw [ht0]
  simp [hp]

theorem finish_parts (s : DBState) (x : String) (now : Nat) :
    (recordFinishTime s x now).2.parts = s.parts := by
  rcases fault_cases s with ⟨e, fs, hf⟩ | h1
  · rw [finish_fault hf]
  · rw [finish_ok x now h1]

/-! ### `updateParticipantStatus` lemmas -/

theorem updPart_txs (s : DBState) (x nm : String) (st : ParticipantStatus) :
    (updateParticipantStatus s x nm st).2.txs = s.txs := by
  cases hf : s.faults with
  | nil =>
    by_cases h2 : s.parts.any (fun r => r.xid == x && r.name == nm) <;>
      simp [updateParticipantStatus, DBState.popFault, hf, h2]
  | cons f fs =>
    cases f with
    | none =>
      by_cases h2 : s.parts.any (fun r => r.xid == x && r.name == nm) <;>
        simp [updateParticipantStatus, DBState.popFault, hf, h2]
    | some e => simp [updateParticipantStatus, DBState.popFault, hf]

theorem updPart_faults_tail (s : DBState) (x nm : String) (st : ParticipantStatus) :
    (updateParticipantStatus s x nm st).2.faults = s.faults.tail := by
  cases hf : s.faults with
  | nil =>
    by_cases h2 : s.parts.any (fun r => r.xid == x && r.name == nm) <;>
      simp [updateParticipantStatus, DBState.popFault, hf, h2]
  | cons f fs =>
    cases f with
    | none =>
      by_cases h2 : s.parts.any (fun r => r.xid == x && r.name == nm) <;>
        simp [updateParticipantStatus, DBState.popFault, hf, h2]
    | some e => simp [updateParticipantStatus, DBState.popFault, hf]

/-! ### Participant commit/rollback lemmas -/

theorem pcommit_txs (p : Participant) (x : String) (s : DBState) :
    (p.commit x s).2.2.txs = s.txs := by
  cases hl : p.localTx with
  | none => simp [Participant.commit, hl]
  | some tx =>
    cases hc : tx.commitErr with
    | some e =>
      rcases h : updateParticipantStatus s x p.name ParticipantStatus.failed with ⟨r1, s1⟩
      have ht : s1.txs = s.txs := by
        have h0 := updPart_txs s x p.name ParticipantStatus.failed
        rw [h] at h0
        exact h0
      simp [Participant.commit, hl, hc, h, ht]
    | none =>
      rcases h : updateParticipantStatus s x p.name ParticipantStatus.committed with ⟨r1, s1⟩
      have ht : s1.txs = s.txs := by
        have h0 := updPart_txs s x p.name ParticipantStatus.committed
        rw [h] at h0
        exact h0
      cases r1 with
      | some e => simp [Participant.commit, hl, hc, h, ht]
      | none => simp [Participant.commit, hl, hc, h, ht]

theorem pcommit_faults_nil (p : Participant) (x : String) (s : DBState)
    (hf : s.faults = []) : (p.commit x s).2.2.faults = [] := by
  cases hl : p.localTx with
  | none => simp [Participant.commit, hl, hf]
  | some tx =>
    cases hc : tx.commitErr with
    | some e =>
      rcases h : updateParticipantStatus s x p.name ParticipantStatus.failed with ⟨r1, s1⟩
      have ht : s1.faults = [] := by
        have h0 := updPart_faults_tail s x p.name ParticipantStatus.failed
        rw [h, hf] at h0
        exact h0
      simp [Participant.commit, hl, hc, h, ht]
    | none =>
      rcases h : updateParticipantStatus s x p.name ParticipantStatus.committed with ⟨r1, s1⟩
      have ht : s1.faults = [] := by
        have h0 := updPart_faults_tail s x p.name ParticipantStatus.committed
        rw [h, hf] at h0
        exact h0
      cases r1 with
      | some e => simp [Participant.commit, hl, hc, h, ht]
      | none => simp [Participant.commit, hl, hc, h, ht]

theorem prollback_txs (p : Participant) (x : String) (s : DBState) :
    (p.rollback x s).2.2.txs = s.txs := by
  cases hl : p.localTx with
  | none => simp [Participant.rollback, hl]
  | some tx =>
    cases hc : tx.rollbackErr with
    | some e =>
      rcases h : updateParticipantStatus s x p.name ParticipantStatus.failed with ⟨r1, s1⟩
      have ht : s1.txs = s.txs := by
        have h0 := updPart_txs s x p.name ParticipantStatus.failed
        rw [h] at h0
        exact h0
      simp [Participant.rollback, hl, hc, h, ht]
    | none =>
      rcases h : updateParticipantStatus s x p.name ParticipantStatus.rolledback with ⟨r1, s1⟩
      have ht : s1.txs = s.txs := by
        have h0 := updPart_txs s x p.name ParticipantStatus.rolledback
        rw [h] at h0
        exact h0
      cases r1 with
      | some e => simp [Participant.rollback, hl, hc, h, ht]
      | none => simp [Participant.rollback, hl, hc, h, ht]

theorem prollback_faults_nil (p : Participant) (x : String) (s : DBState)
    (hf : s.faults = []) : (p.rollback x s).2.2.faults = [] := by
  cases hl : p.localTx with
  | none => simp [Participant.rollback, hl, hf]
  | some tx =>
    cases hc : tx.rollbackErr with
    | some e =>
      rcases h : updateParticipantStatus s x p.name ParticipantStatus.failed with ⟨r1, s1⟩
      have ht : s1.faults = [] := by
        have h0 := updPart_faults_tail s x p.name ParticipantStatus.failed
        rw [h, hf] at h0
        exact h0
      simp [Participant.rollback, hl, hc, h, ht]
    | none =>
      rcases h : updateParticipantStatus s x p.name ParticipantStatus.rolledback with ⟨r1, s1⟩
      have ht : s1.faults = [] := by
        have h0 := updPart_faults_tail s x p.name ParticipantStatus.rolledback
        rw [h, hf] at h0
        exact h0
      cases r1 with
      | some e => simp [Participant.rollback, hl, hc, h, ht]
      | none => simp [Participant.rollback, hl, hc, h, ht]

/-! ### Commit/rollback fan-out lemmas -/

theorem commitLoop_txs (x : String) :
    ∀ (ps : List Participant) (s : DBState), (commitLoop x ps s).2.2.txs = s.txs := by
  intro ps
  induction ps with
  | nil => intro s; rfl
  | cons p ps ih =>
    intro s
    rcases h : p.commit x s with ⟨r, p1, s1⟩
    rcases h2 : commitLoop x ps s1 with ⟨rs, ps1, s2⟩
    have hp : s1.txs = s.txs := by
      have h0 := pcommit_txs p x s
      rw [h] at h0
      exact h0
    have hl : s2.txs = s1.txs := by
      have h0 := ih s1
      rw [h2] at h0
      exact h0
    simp [commitLoop, h, h2, hl, hp]

theorem commitLoop_faults_nil (x : String) :
    ∀ (ps : List Participant) (s : DBState), s.faults = [] →
      (commitLoop x ps s).2.2.faults = [] := by
  intro ps
  induction ps with
  | nil => intro s hf; simpa [commitLoop] using hf
  | cons p ps ih =>
    intro s hf
    rcases h : p.commit x s with ⟨r, p1, s1⟩
    have hp : s1.faults = [] := by
      have h0 := pcommit_faults_nil p x s hf
      rw [h] at h0
      exact h0
    rcases h2 : commitLoop x ps s1 with ⟨rs, ps1, s2⟩
    have hl : s2.faults = [] := by
      have h0 := ih s1 hp
      rw [h2] at h0
      exact h0
    simp [commitLoop, h, h2, hl]

theorem rollbackLoop_txs (x : String) :
    ∀ (ps : List Participant) (s : DBState), (rollbackLoop x ps s).2.2.txs = s.txs := by
  intro ps
  induction ps with
  | nil => intro s; rfl
  | cons p ps ih =>
    intro s
    rcases h : p.rollback x s with ⟨r, p1, s1⟩
    rcases h2 : rollbackLoop x ps s1 with ⟨rs, ps1, s2⟩
    have hp : s1.txs = s.txs := by
      have h0 := prollback_txs p x s
      rw [h] at h0
      exact h0
    have hl : s2.txs = s1.txs := by
      have h0 := ih s1
      rw [h2] at h0
      exact h0
    simp [rollbackLoop, h, h2, hl, hp]

theorem rollbackLoop_faults_nil (x : String) :
    ∀ (ps : List Participant) (s : DBState), s.faults = [] →
      (rollbackLoop x ps s).2.2.faults = [] := by
  intro ps
  induction ps with
  | nil => intro s hf; simpa [rollbackLoop] using hf
  | cons p ps ih =>
    intro s hf
    rcases h : p.rollback x s with ⟨r, p1, s1⟩
    have hp : s1.faults = [] := by
      have h0 := prollback_faults_nil p x s hf
      rw [h] at h0
      exact h0
    rcases h2 : rollbackLoop x ps s1 with ⟨rs, ps1, s2⟩
    have hl : s2.faults = [] := by
      have h0 := ih s1 hp
      rw [h2] at h0
      exact h0
    simp [rollbackLoop, h, h2, hl]

/-! ### Prepare fan-out lemmas -/

theorem getD_zero_headD {α : Type} (l : List α) (d : α) : l.getD 0 d = l.headD d := by
  cases l <;> simp [List.getD]

theorem prepStep_spec (xid : String) (env : String → Option (LocalTx × Option String))
    (p : Participant) (s : DBState) :
    (prepStep xid env p s).1.err = partFailureErr (s.faults.headD none) (env p.name)
    ∧ (prepStep xid env p s).1.success
        = (partFailureErr (s.faults.headD none) (env p.name)).isNone
    ∧ (prepStep xid env p s).2.2.faults = s.faults.tail
    ∧ (prepStep xid env p s).2.2.txs = s.txs := by
  cases hf : s.faults with
  | cons f fs =>
    cases f with
    | some e =>
      simp [prepStep, Participant.register, DBState.popFault, hf, partFailureErr]
    | none =>
      cases he : env p.name with
      | none =>
        simp [prepStep, Participant.register, DBState.popFault, hf, he, partFailureErr]
      | some pr =>
        rcases pr with ⟨ltx, aerr⟩
        cases aerr with
        | some e2 =>
          simp [prepStep, Participant.register, DBState.popFault, hf, he,
            Participant.prepare, partFailureErr]
        | none =>
          simp [prepStep, Participant.register, DBState.popFault, hf, he,
            Participant.prepare, partFailureErr]
  | nil =>
    cases he : env p.name with
    | none =>
      simp [prepStep, Participant.register, DBState.popFault, hf, he, partFailureErr]
    | some pr =>
      rcases pr with ⟨ltx, aerr⟩
      cases aerr with
      | some e2 =>
        simp [prepStep, Participant.register, DBState.popFault, hf, he,
          Participant.prepare, partFailureErr]
      | none =>
        simp [prepStep, Participant.register, DBState.popFault, hf, he,
          Participant.prepare, partFailureErr]

theorem prepStep_parts_cases (xid : String) (env : String → Option (LocalTx × Option String))
    (p : Participant) (s : DBState) :
    (prepStep xid env p s).2.2.parts = s.parts ∨
    (prepStep xid env p s).2.2.parts = s.parts ++
      [{ xid := xid, name := p.name, status := ParticipantStatus.registered,
         resourceID := p.resourceID }] := by
  cases hf : s.faults with
  | cons f fs =>
    cases f with
    | some e =>
      left
      simp [prepStep, Participant.register, DBState.popFault, hf]
    | none =>
      cases he : env p.name with
      | none =>
        right
        simp [prepStep, Participant.register, DBState.popFault, hf, he]
      | some pr =>
        rcases pr with ⟨ltx, aerr⟩
        cases aerr with
        | some e2 =>
          right
          simp [prepStep, Participant.register, DBState.popFault, hf, he, Participant.prepare]
        | none =>
          right
          simp [prepStep, Participant.register, DBState.popFault, hf, he, Participant.prepare]
  | nil =>
    cases he : env p.name with
    | none =>
      right
      simp [prepStep, Participant.register, DBState.popFault, hf, he]
    | some pr =>
      rcases pr with ⟨ltx, aerr⟩
      cases aerr with
      | some e2 =>
        right
        simp [prepStep, Participant.register, DBState.popFault, hf, he, Participant.prepare]
      | none =>
        right
        simp [prepStep, Participant.register, DBState.popFault, hf, he, Participant.prepare]

theorem prepStep_parts_mem (xid : String) (env : String → Option (LocalTx × Option String))
    (p : Participant) (s : DBState) :
    ∀ r ∈ (prepStep xid env p s).2.2.parts,
      r ∈ s.parts ∨ (r.xid = xid ∧ r.status = ParticipantStatus.registered) := by
  intro r hr
  rcases prepStep_parts_cases xid env p s with hp | hp
  · rw [hp] at hr
    exact Or.inl hr
  · rw [hp] at hr
    rcases List.mem_append.mp hr with h | h
    · exact Or.inl h
    · have hx : r = { xid := xid, name := p.name,
                      status := ParticipantStatus.registered,
                      resourceID := p.resourceID } := by simpa using h
      subst hx
      exact Or.inr ⟨rfl, rfl⟩

theorem prepStep_parts_nofault (xid : String) (env : String → Option (LocalTx × Option String))
    (p : Participant) (s : DBState) (hf : s.faults = []) :
    (prepStep xid env p s).2.2.parts = s.parts ++
      [{ xid := xid, name := p.name, status := ParticipantStatus.registered,
         resourceID := p.resourceID }] := by
  cases he : env p.name with
  | none =>
    simp [prepStep, Participant.register, DBState.popFault, hf, he]
  | some pr =>
    rcases pr with ⟨ltx, aerr⟩
    cases aerr with
    | some e2 =>
      simp [prepStep, Participant.register, DBState.popFault, hf, he, Participant.prepare]
    | none =>
      simp [prepStep, Participant.register, DBState.popFault, hf, he, Participant.prepare]

theorem prepareLoop_len (xid : String) (env : String → Option (LocalTx × Option String)) :
    ∀ (ps : List Participant) (s : DBState),
      (prepareLoop xid env ps s).1.length = ps.length := by
  intro ps
  induction ps with
  | nil => intro s; rfl
  | cons p ps ih =>
    intro s
    rcases h : prepStep xid env p s with ⟨r, p1, s1⟩
    rcases h2 : prepareLoop xid env ps s1 with ⟨rs, ps1, s2⟩
    have hlen : rs.length = ps.length := by
      have h0 := ih s1
      rw [h2] at h0
      exact h0
    simp [prepareLoop, h, h2, hlen]

theorem prepareLoop_faults (xid : String) (env : String → Option (LocalTx × Option String)) :
    ∀ (ps : List Participant) (s : DBState),
      (prepareLoop xid env ps s).2.2.faults = s.faults.drop ps.length := by
  intro ps
  induction ps with
  | nil => intro s; simp [prepareLoop]
  | cons p ps ih =>
    intro s
    rcases h : prepStep xid env p s with ⟨r, p1, s1⟩
    rcases h2 : prepareLoop xid env ps s1 with ⟨rs, ps1, s2⟩
    have hfau : s1.faults = s.faults.tail := by
      have h0 := (prepStep_spec xid env p s).2.2.1
      rw [h] at h0
      exact h0
    have hl : s2.faults = s1.faults.drop ps.length := by
      have h0 := ih s1
      rw [h2] at h0
      exact h0
    simp only [prepareLoop, h, h2, List.length_cons]
    rw [hl, hfau, ← drop_succ_eq_tail_drop]

theorem prepareLoop_txs (xid : String) (env : String → Option (LocalTx × Option String)) :
    ∀ (ps : List Participant) (s : DBState),
      (prepareLoop xid env ps s).2.2.txs = s.txs := by
  intro ps
  induction ps with
  | nil => intro s; rfl
  | cons p ps ih =>
    intro s
    rcases h : prepStep xid env p s with ⟨r, p1, s1⟩
    rcases h2 : prepareLoop xid env ps s1 with ⟨rs, ps1, s2⟩
    have ht1 : s1.txs = s.txs := by
      have h0 := (prepStep_spec xid env p s).2.2.2
      rw [h] at h0
      exact h0
    have ht2 : s2.txs = s1.txs := by
      have h0 := ih s1
      rw [h2] at h0
      exact h0
    simp [prepareLoop, h, h2, ht1, ht2]

theorem prepareLoop_parts_mem (xid : String) (env : String → Option (LocalTx × Option String)) :
    ∀ (ps : List Participant) (s : DBState) (r : TransactionParticipant),
      r ∈ (prepareLoop xid env ps s).2.2.parts →
      r ∈ s.parts ∨ (r.xid = xid ∧ r.status = ParticipantStatus.registered) := by
  intro ps
  induction ps with
  | nil => intro s r hr; exact Or.inl hr
  | cons p ps ih =>
    intro s r hr
    rcases h : prepStep xid env p s with ⟨r0, p1, s1⟩
    rcases h2 : prepareLoop xid env ps s1 with ⟨rs, ps1, s2⟩
    have hr2 : r ∈ s2.parts := by
      have h0 : (prepareLoop xid env (p :: ps) s).2.2.parts = s2.parts := by
        simp [prepareLoop, h, h2]
      rw [h0] at hr
      exact hr
    have step := ih s1 r (by rw [h2]; exact hr2)
    rcases step with hmem | hreg
    · have := prepStep_parts_mem xid env p s r (by rw [h]; exact hmem)
      exact this
    · exact Or.inr hreg

theorem prepareLoop_parts_nofault (xid : String)
    (env : String → Option (LocalTx × Option String)) :
    ∀ (ps : List Participant) (s : DBState), s.faults = [] →
      (prepareLoop xid env ps s).2.2.parts = s.parts ++
        ps.map (fun p => { xid := xid, name := p.name,
                           status := ParticipantStatus.registered,
                           resourceID := p.resourceID }) := by
  intro ps
  induction ps with
  | nil => intro s _; simp [prepareLoop]
  | cons p ps ih =>
    intro s hf
    rcases h : prepStep xid env p s with ⟨r, p1, s1⟩
    rcases h2 : prepareLoop xid env ps s1 with ⟨rs, ps1, s2⟩
    have hp1 : s1.parts = s.parts ++
        [{ xid := xid, name := p.name, status := ParticipantStatus.registered,
           resourceID := p.resourceID }] := by
      have h0 := prepStep_parts_nofault xid env p s hf
      rw [h] at h0
      exact h0
    have hf1 : s1.faults = [] := by
      have h0 := (prepStep_spec xid env p s).2.2.1
      rw [h, hf] at h0
      simpa using h0
    have hl : s2.parts = s1.parts ++
        ps.map (fun p => { xid := xid, name := p.name,
                           status := ParticipantStatus.registered,
                           resourceID := p.resourceID }) := by
      have h0 := ih s1 hf1
      rw [h2] at h0
      exact h0
    simp [prepareLoop, h, h2, hl, hp1]

theorem prepareLoop_getD (xid : String) (env : String → Option (LocalTx × Option String)) :
    ∀ (ps : List Participant) (s : DBState) (i : Nat), i < ps.length →
      ((prepareLoop xid env ps s).1.getD i dfltRes).err
          = partFailureErr (s.faults.getD i none) (env ((ps.getD i dfltPart).name))
      ∧ ((prepareLoop xid env ps s).1.getD i dfltRes).success
          = (partFailureErr (s.faults.getD i none) (env ((ps.getD i dfltPart).name))).isNone := by
  intro ps
  induction ps with
  | nil =>
    intro s i hi
    exact absurd hi (by simp)
  | cons p ps ih =>
    intro s i hi
    rcases h : prepStep xid env p s with ⟨r, p1, s1⟩
    rcases h2 : prepareLoop xid env ps s1 with ⟨rs, ps1, s2⟩
    have herr : r.err = partFailureErr (s.faults.headD none) (env p.name) := by
      have h0 := (prepStep_spec xid env p s).1
      rw [h] at h0
      exact h0
    have hsuc : r.success = (partFailureErr (s.faults.headD none) (env p.name)).isNone := by
      have h0 := (prepStep_spec xid env p s).2.1
      rw [h] at h0
      exact h0
    have hfau : s1.faults = s.faults.tail := by
      have h0 := (prepStep_spec xid env p s).2.2.1
      rw [h] at h0
      exact h0
    cases i with
    | zero =>
      have hz : s.faults.getD 0 none = s.faults.headD none := getD_zero_headD s.faults none
      constructor
      · simp only [prepareLoop, h, h2, List.getD_cons_zero, hz]
        exact herr
      · simp only [prepareLoop, h, h2, List.getD_cons_zero, hz]
        exact hsuc
    | succ j =>
      have hj : j < ps.length := by
        simp only [List.length_cons] at hi
        omega
      have ih1 : (rs.getD j dfltRes).err
          = partFailureErr (s1.faults.getD j none) (env ((ps.getD j dfltPart).name)) := by
        have h0 := (ih s1 j hj).1
        rw [h2] at h0
        exact h0
      have ih2 : (rs.getD j dfltRes).success
          = (partFailureErr (s1.faults.getD j none) (env ((ps.getD j dfltPart).name))).isNone := by
        have h0 := (ih s1 j hj).2
        rw [h2] at h0
        exact h0
      rw [hfau, getD_tail_eq] at ih1 ih2
      constructor
      · simp only [prepareLoop, h, h2, List.getD_cons_succ]
        exact ih1
      · simp only [prepareLoop, h, h2, List.getD_cons_succ]
        exact ih2

/-! ### Branch equations for the coordinator operations -/

theorem prepare_eq_fault {c : TransactionCoordinator} {xid : String}
    {env : String → Option (LocalTx × Option String)} {s s1 : DBState} {e : String}
    (h1 : updateTransactionStatus s xid TransactionStatus.preparing = (some e, s1)) :
    c.prepare xid env s = ((false, some e), c, s1) := by
  simp [TransactionCoordinator.prepare, h1]

theorem prepare_eq_ok {c : TransactionCoordinator} {xid : String}
    {env : String → Option (LocalTx × Option String)} {s s1 s2 s3 : DBState}
    {results : List OperationResult} {ps2 : List Participant}
    (h1 : updateTransactionStatus s xid TransactionStatus.preparing = (none, s1))
    (h2 : prepareLoop xid env c.participants s1 = (results, ps2, s2))
    (hall : results.all (fun r => r.success) = true)
    (h3 : updateTransactionStatus s2 xid TransactionStatus.prepared = (none, s3)) :
    c.prepare xid env s = ((true, none), { c with participants := ps2 }, s3) := by
  simp [TransactionCoordinator.prepare, h1, h2, hall, h3]

theorem prepare_eq_ok_fault {c : TransactionCoordinator} {xid : String}
    {env : String → Option (LocalTx × Option String)} {s s1 s2 s3 : DBState}
    {results : List OperationResult} {ps2 : List Participant} {e : String}
    (h1 : updateTransactionStatus s xid TransactionStatus.preparing = (none, s1))
    (h2 : prepareLoop xid env c.participants s1 = (results, ps2, s2))
    (hall : results.all (fun r => r.success) = true)
    (h3 : updateTransactionStatus s2 xid TransactionStatus.prepared = (some e, s3)) :
    c.prepare xid env s = ((false, some e), { c with participants := ps2 }, s3) := by
  simp [TransactionCoordinator.prepare, h1, h2, hall, h3]

theorem prepare_eq_fail {c : TransactionCoordinator} {xid : String}
    {env : String → Option (LocalTx × Option String)} {s s1 s2 s3 : DBState}
    {results : List OperationResult} {ps2 : List Participant} {e3 : Option String}
    (h1 : updateTransactionStatus s xid TransactionStatus.preparing = (none, s1))
    (h2 : prepareLoop xid env c.participants s1 = (results, ps2, s2))
    (hall : results.all (fun r => r.success) = false)
    (h3 : updateTransactionStatus s2 xid TransactionStatus.failed = (e3, s3)) :
    c.prepare xid env s = ((false, firstFailingErr results), { c with participants := ps2 }, s3) := by
  simp [TransactionCoordinator.prepare, h1, h2, hall, h3]

theorem commit_eq_notfound {c : TransactionCoordinator} {xid : String} {now : Nat}
    {s : DBState} (h : getTransactionStatus s xid = none) :
    c.commit xid now s = ((false, some "record not found"), c, s) := by
  simp [TransactionCoordinator.commit, h]

theorem commit_eq_badstatus {c : TransactionCoordinator} {xid : String} {now : Nat}
    {s : DBState} {st : TransactionStatus}
    (h : getTransactionStatus s xid = some st) (hne : st ≠ TransactionStatus.prepared) :
    c.commit xid now s =
      ((false, some ("transaction not in prepared state, current status: " ++ statusStr st)),
       c, s) := by
  simp [TransactionCoordinator.commit, h, hne]

theorem commit_eq_ok {c : TransactionCoordinator} {xid : String} {now : Nat}
    {s s1 s2 s3 : DBState} {results : List OperationResult} {ps2 : List Participant}
    {e4 : Option String}
    (h : getTransactionStatus s xid = some TransactionStatus.prepared)
    (h2 : commitLoop xid c.participants s = (results, ps2, s1))
    (hall : results.all (fun r => r.success) = true)
    (h3 : updateTransactionStatus s1 xid TransactionStatus.committed = (none, s2))
    (h4 : recordFinishTime s2 xid now = (e4, s3)) :
    c.commit xid now s = ((true, none), { c with participants := ps2 }, s3) := by
  simp [TransactionCoordinator.commit, h, h2, hall, h3, h4]

theorem commit_eq_updfault {c : TransactionCoordinator} {xid : String} {now : Nat}
    {s s1 s2 : DBState} {results : List OperationResult} {ps2 : List Participant} {e : String}
    (h : getTransactionStatus s xid = some TransactionStatus.prepared)
    (h2 : commitLoop xid c.participants s = (results, ps2, s1))
    (hall : results.all (fun r => r.success) = true)
    (h3 : updateTransactionStatus s1 xid TransactionStatus.committed = (some e, s2)) :
    c.commit xid now s = ((false, some e), { c with participants := ps2 }, s2) := by
  simp [TransactionCoordinator.commit, h, h2, hall, h3]

theorem commit_eq_fail {c : TransactionCoordinator} {xid : String} {now : Nat}
    {s s1 s2 : DBState} {results : List OperationResult} {ps2 : List Participant}
    {e3 : Option String}
    (h : getTransactionStatus s xid = some TransactionStatus.prepared)
    (h2 : commitLoop xid c.participants s = (results, ps2, s1))
    (hall : results.all (fun r => r.success) = false)
    (h3 : updateTransactionStatus s1 xid TransactionStatus.failed = (e3, s2)) :
    c.commit xid now s = ((false, firstFailingErr results), { c with participants := ps2 }, s2) := by
  simp [TransactionCoordinator.commit, h, h2, hall, h3]

theorem rollback_eq_notfound {c : TransactionCoordinator} {xid : String} {now : Nat}
    {s : DBState} (h : getTransactionStatus s xid = none) :
    c.rollback xid now s = ((false, some "record not found"), c, s) := by
  simp [TransactionCoordinator.rollback, h]

theorem rollback_eq_committed {c : TransactionCoordinator} {xid : String} {now : Nat}
    {s : DBState} (h : getTransactionStatus s xid = some TransactionStatus.committed) :
    c.rollback xid now s =
      ((false, some "cannot rollback an already committed transaction"), c, s) := by
  simp [TransactionCoordinator.rollback, h]

theorem rollback_eq_ok {c : TransactionCoordinator} {xid : String} {now : Nat}
    {s s1 s2 s3 : DBState} {st : TransactionStatus}
    {results : List OperationResult} {ps2 : List Participant} {e4 : Option String}
    (h : getTransactionStatus s xid = some st) (hne : st ≠ TransactionStatus.committed)
    (h2 : rollbackLoop xid c.participants s = (results, ps2, s1))
    (h3 : updateTransactionStatus s1 xid TransactionStatus.rolledback = (none, s2))
    (h4 : recordFinishTime s2 xid now = (e4, s3)) :
    c.rollback xid now s = ((true, none), { c with participants := ps2 }, s3) := by
  simp [TransactionCoordinator.rollback, h, hne, h2, h3, h4]

theorem rollback_eq_updfault {c : TransactionCoordinator} {xid : String} {now : Nat}
    {s s1 s2 : DBState} {st : TransactionStatus}
    {results : List OperationResult} {ps2 : List Participant} {e : String}
    (h : getTransactionStatus s xid = some st) (hne : st ≠ TransactionStatus.committed)
    (h2 : rollbackLoop xid c.participants s = (results, ps2, s1))
    (h3 : updateTransactionStatus s1 xid TransactionStatus.rolledback = (some e, s2)) :
    c.rollback xid now s = ((false, some e), { c with participants := ps2 }, s2) := by
  simp [TransactionCoordinator.rollback, h, hne, h2, h3]

/-- A fault-free status write followed by the finish-time write: both succeed,
the first xid row ends with the written status and `finishTime = now`. -/
theorem updThenFinish {s : DBState} {x : String} (stt : TransactionStatus) (now : Nat)
    (hf : s.faults = []) (hany : s.txs.any (fun t => t.xid == x) = true) :
    ∃ s2 s3 : DBState,
      updateTransactionStatus s x stt = (none, s2)
      ∧ recordFinishTime s2 x now = (none, s3)
      ∧ getTransactionStatus s3 x = some stt
      ∧ getFinishTime s3 x = some (some now)
      ∧ s3.faults = [] := by
  have hh : s.faults.headD none = none := by rw [hf]; rfl
  have h2 := updStatus_ok stt hh hany
  set s2 : DBState := { s with
    txs := s.txs.map (fun t => if t.xid == x then { t with status := stt } else t),
    faults := s.faults.tail } with hs2
  have hf2 : s2.faults = [] := by
    rw [hs2]
    show s.faults.tail = []
    rw [hf]
    rfl
  have hany2 : s2.txs.any (fun t => t.xid == x) = true := by
    rw [hs2]
    show (s.txs.map _).any _ = true
    rw [any_map_xid _ (statusMap_preserves_xid x stt) x s.txs]
    exact hany
  have hst2 : getTransactionStatus s2 x = some stt := getStatus_upd_self h2
  have hh2 : s2.faults.headD none = none := by rw [hf2]; rfl
  have h3 := finish_ok x now hh2
  set s3 : DBState := { s2 with
    txs := s2.txs.map (fun t => if t.xid == x then { t with finishTime := some now } else t),
    faults := s2.faults.tail } with hs3
  refine ⟨s2, s3, h2, h3, ?_, ?_, ?_⟩
  · have hpres : getTransactionStatus s3 x = getTransactionStatus s2 x := by
      have h0 := finish_preserves_status s2 x now x
      rw [h3] at h0
      exact h0
    rw [hpres, hst2]
  · have h0 := getFinish_finish_self now hh2 hany2
    rw [h3] at h0
    exact h0
  · rw [hs3]
    show s2.faults.tail = []
    rw [hf2]
    rfl

/-- C8: `Participant.Commit` and `Participant.Rollback` with no open local
handle return a failing `OperationResult` carrying the "no active local
transaction" error, and leave the store (hence every stored participant
record) completely unchanged — no status write is attempted. -/
theorem C8_no_handle_rejected (p : Participant) (xid : String) (s : DBState)
    (h : p.localTx = none) :
    p.commit xid s =
      ({ success := false, err := some "no active local transaction",
         message := "No active transaction found for participant " ++ p.name }, p, s)
    ∧ p.rollback xid s =
      ({ success := false, err := some "no active local transaction",
         message := "No active transaction found for participant " ++ p.name }, p, s) := by
  constructor
  · simp [Participant.commit, h]
  · simp [Participant.rollback, h]

theorem C8_no_handle_rejected_witness :
    partA.commit "x" storeX =
      ({ success := false, err := some "no active local transaction",
         message := "No active transaction found for participant " ++ partA.name },
       partA, storeX)
    ∧ partA.rollback "x" storeX =
      ({ success := false, err := some "no active local transaction",
         message := "No active transaction found for participant " ++ partA.name },
       partA, storeX) :=
  C8_no_handle_rejected partA "x" storeX rfl

/-- C5 (counterexample): a `Participant.Prepare` whose action fails returns a
failing result but leaves `LocalTx` pointing at the rolled-back handle — the
handle reference is NOT null after a failed `Prepare`, contradicting the
claim that `LocalTx` is non-null exactly between a successful `Prepare` and
the following `Commit`/`Rollback`. -/
theorem C5_failed_prepare_keeps_handle :
    (partA.prepare "x" okTx (some "prepare action failed")).1.success = false
    ∧ (partA.prepare "x" okTx (some "prepare action failed")).2.localTx = some okTx
    ∧ some okTx ≠ (none : Option LocalTx) := by
  refine ⟨rfl, rfl, by decide⟩

/-- C5 (amended): `Prepare` always stores the fresh handle in `LocalTx`
(also when the action fails and the handle has been rolled back); `Commit`
and `Rollback` clear the handle exactly on their fully successful path and
leave it untouched whenever they return failure (no handle, handle
commit/rollback error, or participant-status write error). -/
theorem C5_localTx_lifecycle (p : Participant) (xid : String) (newTx : LocalTx)
    (actionErr : Option String) (s : DBState) :
    ((p.prepare xid newTx actionErr).2.localTx = some newTx)
    ∧ ((p.commit xid s).1.success = true → (p.commit xid s).2.1.localTx = none)
    ∧ ((p.commit xid s).1.success = false → (p.commit xid s).2.1.localTx = p.localTx)
    ∧ ((p.rollback xid s).1.success = true → (p.rollback xid s).2.1.localTx = none)
    ∧ ((p.rollback xid s).1.success = false → (p.rollback xid s).2.1.localTx = p.localTx) := by
  refine ⟨?_, ?_, ?_, ?_, ?_⟩
  · cases actionErr <;> simp [Participant.prepare]
  all_goals {
    cases hl : p.localTx with
    | none => simp [Participant.commit, Participant.rollback, hl]
    | some tx =>
      first
      | (cases hc : tx.commitErr with
         | some e =>
           rcases h : updateParticipantStatus s xid p.name ParticipantStatus.failed with ⟨r1, s1⟩
           simp [Participant.commit, hl, hc, h]
         | none =>
           rcases h : updateParticipantStatus s xid p.name ParticipantStatus.committed with ⟨r1, s1⟩
           cases r1 <;> simp [Participant.commit, hl, hc, h])
      | (cases hc : tx.rollbackErr with
         | some e =>
           rcases h : updateParticipantStatus s xid p.name ParticipantStatus.failed with ⟨r1, s1⟩
           simp [Participant.rollback, hl, hc, h]
         | none =>
           rcases h : updateParticipantStatus s xid p.name ParticipantStatus.rolledback with ⟨r1, s1⟩
           cases r1 <;> simp [Participant.rollback, hl, hc, h])
  }

theorem C5_localTx_lifecycle_witness :
    (partA.prepare "x" okTx none).2.localTx = some okTx :=
  (C5_localTx_lifecycle partA "x" okTx none storeX).1

/-- C2: `Commit` with stored status ≠ `prepared` fails with the "not in
prepared state" error, touching neither the participants nor the store; and a
second `Commit` after a first fully successful one fails the same way with
current status `committed`. -/
theorem C2_commit_guard (c : TransactionCoordinator) (xid : String) (now now2 : Nat)
    (s : DBState) :
    (∀ st, getTransactionStatus s xid = some st → st ≠ TransactionStatus.prepared →
      c.commit xid now s =
        ((false, some ("transaction not in prepared state, current status: " ++ statusStr st)),
         c, s))
    ∧ (∀ c2 s2, c.commit xid now s = ((true, none), c2, s2) →
      (c2.commit xid now2 s2).1 =
        (false, some ("transaction not in prepared state, current status: "
          ++ statusStr TransactionStatus.committed))) := by
  constructor
  · intro st h hne
    exact commit_eq_badstatus h hne
  · intro c2 s2 hc
    cases hg : getTransactionStatus s xid with
    | none =>
      rw [commit_eq_notfound hg] at hc
      simp at hc
    | some st =>
      by_cases hst : st = TransactionStatus.prepared
      · subst hst
        rcases h2 : commitLoop xid c.participants s with ⟨results, ps2, s1⟩
        cases hall : results.all (fun r => r.success) with
        | false =>
          rcases h3 : updateTransactionStatus s1 xid TransactionStatus.failed with ⟨e3, s3⟩
          rw [commit_eq_fail hg h2 hall h3] at hc
          simp at hc
        | true =>
          rcases h3 : updateTransactionStatus s1 xid TransactionStatus.committed with ⟨e3, s3⟩
          cases e3 with
          | some e =>
            rw [commit_eq_updfault hg h2 hall h3] at hc
            simp at hc
          | none =>
            rcases h4 : recordFinishTime s3 xid now with ⟨e4, s4⟩
            rw [commit_eq_ok hg h2 hall h3 h4] at hc
            have hs2 : s4 = s2 := by exact congrArg (fun z => z.2.2) hc
            have h5 : getTransactionStatus s4 xid = getTransactionStatus s3 xid := by
              have h0 := finish_preserves_status s3 xid now xid
              rw [h4] at h0
              exact h0
            have hstat : getTransactionStatus s2 xid = some TransactionStatus.committed := by
              rw [← hs2, h5]
              exact getStatus_upd_self h3
            rw [commit_eq_badstatus hstat (by intro hcon; cases hcon)]
      · rw [commit_eq_badstatus hg hst] at hc
        simp at hc

theorem C2_commit_guard_witness :
    coordNone.commit "x" 0 storeX =
      ((false, some ("transaction not in prepared state, current status: "
        ++ statusStr TransactionStatus.created)), coordNone, storeX)
    ∧ (coordNone.commit "x" 7 storeAfterFinishFault).1 =
      (false, some ("transaction not in prepared state, current status: "
        ++ statusStr TransactionStatus.committed)) := by
  constructor
  · exact (C2_commit_guard coordNone "x" 0 0 storeX).1 TransactionStatus.created
      (by decide) (by decide)
  · exact (C2_commit_guard coordNone "x" 5 7 storeFinishFault).2 coordNone
      storeAfterFinishFault (by decide)

/-- C4: `Rollback` on a `committed` transaction fails without touching the
participants or the store; on any other stored status and a fault-free store
it returns `(true, nil)`, sets the status to `rolledback`, and stamps
`finishTime`, regardless of the participants' handle states and rollback
outcomes. -/
theorem C4_rollback_semantics (c : TransactionCoordinator) (xid : String) (now : Nat)
    (s : DBState) (st : TransactionStatus)
    (hst : getTransactionStatus s xid = some st) :
    (st = TransactionStatus.committed →
      c.rollback xid now s =
        ((false, some "cannot rollback an already committed transaction"), c, s))
    ∧ (st ≠ TransactionStatus.committed → s.faults = [] →
        (c.rollback xid now s).1 = (true, none)
        ∧ getTransactionStatus (c.rollback xid now s).2.2 xid
            = some TransactionStatus.rolledback
        ∧ getFinishTime (c.rollback xid now s).2.2 xid = some (some now)) := by
  constructor
  · intro h
    subst h
    exact rollback_eq_committed hst
  · intro hne hf
    rcases h2 : rollbackLoop xid c.participants s with ⟨results, ps2, s1⟩
    have hf1 : s1.faults = [] := by
      have h0 := rollbackLoop_faults_nil xid c.participants s hf
      rw [h2] at h0
      exact h0
    have ht1 : s1.txs = s.txs := by
      have h0 := rollbackLoop_txs xid c.participants s
      rw [h2] at h0
      exact h0
    have hany1 : s1.txs.any (fun t => t.xid == xid) = true := by
      rw [ht1]
      exact any_of_getStatus hst
    rcases updThenFinish TransactionStatus.rolledback now hf1 hany1 with
      ⟨s2, s3, h3, h4, hst3, hfin3, -⟩
    rw [rollback_eq_ok hst hne h2 h3 h4]
    exact ⟨rfl, hst3, hfin3⟩

theorem C4_rollback_semantics_witness :
    ((coordA.rollback "x" 9 storeX).1 = (true, none)
      ∧ getTransactionStatus (coordA.rollback "x" 9 storeX).2.2 "x"
          = some TransactionStatus.rolledback
      ∧ getFinishTime (coordA.rollback "x" 9 storeX).2.2 "x" = some (some 9)) :=
  (C4_rollback_semantics coordA "x" 9 storeX TransactionStatus.created (by decide)).2
    (by decide) (by decide)

theorem updStatus_faults_tail (s : DBState) (x : String) (st : TransactionStatus) :
    (updateTransactionStatus s x st).2.faults = s.faults.tail := by
  rcases updStatus_cases s x with ⟨e, fs, hf⟩ | ⟨h1, h2⟩ | ⟨h1, h2⟩
  · rw [updStatus_fault hf, hf]; rfl
  · rw [updStatus_notfound h1 h2]
  · rw [updStatus_ok st h1 h2]

theorem getStatus_eq_of_txs {a b : DBState} (h : a.txs = b.txs) (y : String) :
    getTransactionStatus a y = getTransactionStatus b y := by
  unfold getTransactionStatus
  rw [h]

theorem listFinish_eq_of_txs {a b : DBState} (h : a.txs = b.txs) :
    listFinish a = listFinish b := by
  unfold listFinish
  rw [h]

theorem find?_append_nomatch {l : List Transaction} {x : String}
    (h : l.any (fun t => t.xid == x) = false) (t : Transaction) :
    (l ++ [t]).find? (fun tt => tt.xid == x) = [t].find? (fun tt => tt.xid == x) := by
  induction l with
  | nil => rfl
  | cons a l ih =>
    rw [List.any_cons] at h
    have ha : (a.xid == x) = false := by
      cases hq : (a.xid == x)
      · rfl
      · rw [hq] at h; simp at h
    have hl : l.any (fun t => t.xid == x) = false := by
      cases hq : l.any (fun t => t.xid == x)
      · rfl
      · rw [hq] at h; simp at h
    simp only [List.cons_append, List.find?_cons, ha]
    exact ih hl

theorem begin_eq_fault {s : DBState} {xid : String} {now : Nat} {descr : String}
    {e : String} {fs : List (Option String)} (h : s.faults = some e :: fs) :
    coordBegin s xid now descr = (some e, { s with faults := fs }) := by
  simp [coordBegin, DBState.popFault, h]

theorem begin_eq_ok {s : DBState} {xid : String} {now : Nat} {descr : String}
    (h1 : s.faults.headD none = none)
    (h2 : s.txs.any (fun t => t.xid == xid) = false) :
    coordBegin s xid now descr =
      (none, { s with
        txs := s.txs ++ [{ xid := xid, status := TransactionStatus.created,
                           startTime := now, finishTime := none,
                           description := descr }],
        faults := s.faults.tail }) := by
  cases hf : s.faults with
  | nil =>
    simp [coordBegin, DBState.popFault, hf, h2]
  | cons f fs =>
    rw [hf] at h1
    simp only [List.headD_cons] at h1
    subst h1
    simp [coordBegin, DBState.popFault, hf, h2]

theorem begin_eq_dup {s : DBState} {xid : String} {now : Nat} {descr : String}
    (h1 : s.faults.headD none = none)
    (h2 : s.txs.any (fun t => t.xid == xid) = true) :
    coordBegin s xid now descr =
      (some "failed to create transaction record: duplicate xid",
       { s with faults := s.faults.tail }) := by
  cases hf : s.faults with
  | nil =>
    simp [coordBegin, DBState.popFault, hf, h2]
    conv_rhs => rw [← hf]
  | cons f fs =>
    rw [hf] at h1
    simp only [List.headD_cons] at h1
    subst h1
    simp [coordBegin, DBState.popFault, hf, h2]

/-- C10: with no registered participants, `Prepare` succeeds vacuously for any
actions map — it returns `(true, nil)` and sets the transaction status to
`prepared` — and the subsequent `Commit` runs with zero participants,
returning `(true, nil)` with status `committed`. -/
theorem C10_empty_prepare_commit (c : TransactionCoordinator) (xid : String)
    (env : String → Option (LocalTx × Option String)) (now : Nat) (s : DBState)
    (hp : c.participants = []) (hf : s.faults = [])
    (hx : s.txs.any (fun t => t.xid == xid) = true) :
    (c.prepare xid env s).1 = (true, none)
    ∧ getTransactionStatus (c.prepare xid env s).2.2 xid = some TransactionStatus.prepared
    ∧ ((c.prepare xid env s).2.1.commit xid now (c.prepare xid env s).2.2).1 = (true, none)
    ∧ getTransactionStatus
        ((c.prepare xid env s).2.1.commit xid now (c.prepare xid env s).2.2).2.2 xid
        = some TransactionStatus.committed := by
  have hh : s.faults.headD none = none := by rw [hf]; rfl
  have h1 := updStatus_ok TransactionStatus.preparing hh hx
  set s1 : DBState := { s with
    txs := s.txs.map (fun t =>
      if t.xid == xid then { t with status := TransactionStatus.preparing } else t),
    faults := s.faults.tail } with hs1
  have hf1 : s1.faults = [] := by
    rw [hs1]
    show s.faults.tail = []
    rw [hf]
    rfl
  have hany1 : s1.txs.any (fun t => t.xid == xid) = true := by
    rw [hs1]
    show (s.txs.map _).any _ = true
    rw [any_map_xid _ (statusMap_preserves_xid xid TransactionStatus.preparing) xid s.txs]
    exact hx
  have h2 : prepareLoop xid env c.participants s1 = ([], [], s1) := by
    rw [hp]
    rfl
  have hh1 : s1.faults.headD none = none := by rw [hf1]; rfl
  have h3 := updStatus_ok TransactionStatus.prepared hh1 hany1
  set s2 : DBState := { s1 with
    txs := s1.txs.map (fun t =>
      if t.xid == xid then { t with status := TransactionStatus.prepared } else t),
    faults := s1.faults.tail } with hs2
  have hf2 : s2.faults = [] := by
    rw [hs2]
    show s1.faults.tail = []
    rw [hf1]
    rfl
  have hany2 : s2.txs.any (fun t => t.xid == xid) = true := by
    rw [hs2]
    show (s1.txs.map _).any _ = true
    rw [any_map_xid _ (statusMap_preserves_xid xid TransactionStatus.prepared) xid s1.txs]
    exact hany1
  have hst2 : getTransactionStatus s2 xid = some TransactionStatus.prepared :=
    getStatus_upd_self h3
  have hpre := prepare_eq_ok (c := c) h1 h2 (by rfl) h3
  rw [hpre]
  refine ⟨rfl, hst2, ?_, ?_⟩
  all_goals {
    have h2c : commitLoop xid ({ c with participants := ([] : List Participant) }).participants s2
        = ([], [], s2) := rfl
    rcases updThenFinish TransactionStatus.committed now hf2 hany2 with
      ⟨s3, s4, h3c, h4c, hstc, hfinc, -⟩
    rw [commit_eq_ok hst2 h2c (by rfl) h3c h4c]
    try exact hstc
  }

theorem C10_empty_prepare_commit_witness :
    (coordNone.prepare "x" envAll storeX).1 = (true, none)
    ∧ getTransactionStatus (coordNone.prepare "x" envAll storeX).2.2 "x"
        = some TransactionStatus.prepared
    ∧ ((coordNone.prepare "x" envAll storeX).2.1.commit "x" 3
        (coordNone.prepare "x" envAll storeX).2.2).1 = (true, none)
    ∧ getTransactionStatus
        ((coordNone.prepare "x" envAll storeX).2.1.commit "x" 3
          (coordNone.prepare "x" envAll storeX).2.2).2.2 "x"
        = some TransactionStatus.committed :=
  C10_empty_prepare_commit coordNone "x" envAll 3 storeX rfl rfl (by decide)

/-- C6 (counterexample): a fully successful `Prepare` leaves the stored
participant record at status `registered`, not `prepared` — the coordinator
never writes `ParticipantPrepared` to the participant records. -/
theorem C6_record_stays_registered_cex :
    (coordA.prepare "x" envAll storeX).1 = (true, none)
    ∧ (coordA.prepare "x" envAll storeX).2.2.parts =
        [{ xid := "x", name := "a", status := ParticipantStatus.registered,
           resourceID := "r" }]
    ∧ ParticipantStatus.registered ≠ ParticipantStatus.prepared := by
  refine ⟨by decide, by decide, by decide⟩

/-- C6 (amended): after a successful `Coordinator.Prepare` it is the
transaction record whose status is `prepared`; every participant record
created by the call still carries status `registered` (the participant-level
`prepared` state is only tracked implicitly through the global status). -/
theorem C6_prepared_is_global_only (c : TransactionCoordinator) (xid : String)
    (env : String → Option (LocalTx × Option String)) (s : DBState)
    (h : (c.prepare xid env s).1 = (true, none)) :
    getTransactionStatus (c.prepare xid env s).2.2 xid = some TransactionStatus.prepared
    ∧ ∀ r ∈ (c.prepare xid env s).2.2.parts,
        r ∈ s.parts ∨ (r.xid = xid ∧ r.status = ParticipantStatus.registered) := by
  rcases h1 : updateTransactionStatus s xid TransactionStatus.preparing with ⟨e1, s1⟩
  cases e1 with
  | some e =>
    rw [prepare_eq_fault h1] at h
    simp at h
  | none =>
    rcases h2 : prepareLoop xid env c.participants s1 with ⟨results, ps2, s2⟩
    cases hall : results.all (fun r => r.success) with
    | false =>
      rcases h3 : updateTransactionStatus s2 xid TransactionStatus.failed with ⟨e3, s3⟩
      rw [prepare_eq_fail h1 h2 hall h3] at h
      simp at h
    | true =>
      rcases h3 : updateTransactionStatus s2 xid TransactionStatus.prepared with ⟨e3, s3⟩
      cases e3 with
      | some e =>
        rw [prepare_eq_ok_fault h1 h2 hall h3] at h
        simp at h
      | none =>
        rw [prepare_eq_ok h1 h2 hall h3]
        constructor
        · exact getStatus_upd_self h3
        · intro r hr
          have hr3 : r ∈ s3.parts := hr
          have hp3 : s3.parts = s2.parts := by
            have h0 := updStatus_parts s2 xid TransactionStatus.prepared
            rw [h3] at h0
            exact h0
          rw [hp3] at hr3
          have hstep := prepareLoop_parts_mem xid env c.participants s1 r
            (by rw [h2]; exact hr3)
          rcases hstep with hmem | hreg
          · have hp1 : s1.parts = s.parts := by
              have h0 := updStatus_parts s xid TransactionStatus.preparing
              rw [h1] at h0
              exact h0
            rw [hp1] at hmem
            exact Or.inl hmem
          · exact Or.inr hreg

theorem C6_prepared_is_global_only_witness :
    getTransactionStatus (coordA.prepare "x" envAll storeX).2.2 "x"
        = some TransactionStatus.prepared
    ∧ ∀ r ∈ (coordA.prepare "x" envAll storeX).2.2.parts,
        r ∈ storeX.parts ∨ (r.xid = "x" ∧ r.status = ParticipantStatus.registered) :=
  C6_prepared_is_global_only coordA "x" envAll storeX (by decide)

/-- C3 (counterexample): a `Prepare` that fails (here: no action supplied for
the registered participant) drives the transaction to the terminal status
`failed` while `finishTime` stays null — refuting "finishTime is non-null
once the status is any terminal status". -/
theorem C3_failed_has_null_finishTime :
    (coordA.prepare "x" envMiss storeX).1 =
      (false, some "no action defined for participant")
    ∧ getTransactionStatus (coordA.prepare "x" envMiss storeX).2.2 "x"
        = some TransactionStatus.failed
    ∧ getFinishTime (coordA.prepare "x" envMiss storeX).2.2 "x" = some none := by
  refine ⟨by decide, by decide, by decide⟩

/-- C3 (amended): `finishTime` starts null (`Begin`), is never written by
`Prepare`, and stays untouched whenever `Commit`/`Rollback` return failure;
on a fault-free store a successful `Commit` (resp. `Rollback`) stamps
`finishTime = now` after the `committed` (resp. `rolledback`) status write —
transactions that end `failed` keep a null `finishTime`. -/
theorem C3_finishTime_discipline (c : TransactionCoordinator) (xid : String)
    (env : String → Option (LocalTx × Option String)) (now : Nat) (descr : String)
    (s : DBState) :
    (listFinish (c.prepare xid env s).2.2 = listFinish s)
    ∧ ((c.commit xid now s).1.1 = false →
        listFinish (c.commit xid now s).2.2 = listFinish s)
    ∧ (s.faults = [] → (c.commit xid now s).1 = (true, none) →
        getTransactionStatus (c.commit xid now s).2.2 xid
            = some TransactionStatus.committed
        ∧ getFinishTime (c.commit xid now s).2.2 xid = some (some now))
    ∧ ((c.rollback xid now s).1.1 = false →
        listFinish (c.rollback xid now s).2.2 = listFinish s)
    ∧ (s.faults = [] → (c.rollback xid now s).1 = (true, none) →
        getTransactionStatus (c.rollback xid now s).2.2 xid
            = some TransactionStatus.rolledback
        ∧ getFinishTime (c.rollback xid now s).2.2 xid = some (some now))
    ∧ (∀ s1, coordBegin s xid now descr = (none, s1) →
        getFinishTime s1 xid = some none) := by
  refine ⟨?_, ?_, ?_, ?_, ?_, ?_⟩
  · -- Prepare never touches finishTime
    rcases h1 : updateTransactionStatus s xid TransactionStatus.preparing with ⟨e1, s1⟩
    have hl1 : listFinish s1 = listFinish s := by
      have h0 := updStatus_listFinish s xid TransactionStatus.preparing
      rw [h1] at h0
      exact h0
    cases e1 with
    | some e => rw [prepare_eq_fault h1]; exact hl1
    | none =>
      rcases h2 : prepareLoop xid env c.participants s1 with ⟨results, ps2, s2⟩
      have hl2 : listFinish s2 = listFinish s1 := by
        apply listFinish_eq_of_txs
        have h0 := prepareLoop_txs xid env c.participants s1
        rw [h2] at h0
        exact h0
      cases hall : results.all (fun r => r.success) with
      | true =>
        rcases h3 : updateTransactionStatus s2 xid TransactionStatus.prepared with ⟨e3, s3⟩
        have hl3 : listFinish s3 = listFinish s2 := by
          have h0 := updStatus_listFinish s2 xid TransactionStatus.prepared
          rw [h3] at h0
          exact h0
        cases e3 with
        | some e => rw [prepare_eq_ok_fault h1 h2 hall h3]; rw [hl3, hl2, hl1]
        | none => rw [prepare_eq_ok h1 h2 hall h3]; rw [hl3, hl2, hl1]
      | false =>
        rcases h3 : updateTransactionStatus s2 xid TransactionStatus.failed with ⟨e3, s3⟩
        have hl3 : listFinish s3 = listFinish s2 := by
          have h0 := updStatus_listFinish s2 xid TransactionStatus.failed
          rw [h3] at h0
          exact h0
        rw [prepare_eq_fail h1 h2 hall h3]
        rw [hl3, hl2, hl1]
  · -- failing Commit never touches finishTime
    intro hfail
    cases hg : getTransactionStatus s xid with
    | none => rw [commit_eq_notfound hg]
    | some st =>
      by_cases hst : st = TransactionStatus.prepared
      · subst hst
        rcases h2 : commitLoop xid c.participants s with ⟨results, ps2, s1⟩
        have hl1 : listFinish s1 = listFinish s := by
          apply listFinish_eq_of_txs
          have h0 := commitLoop_txs xid c.participants s
          rw [h2] at h0
          exact h0
        cases hall : results.all (fun r => r.success) with
        | false =>
          rcases h3 : updateTransactionStatus s1 xid TransactionStatus.failed with ⟨e3, s3⟩
          have hl3 : listFinish s3 = listFinish s1 := by
            have h0 := updStatus_listFinish s1 xid TransactionStatus.failed
            rw [h3] at h0
            exact h0
          rw [commit_eq_fail hg h2 hall h3]
          rw [hl3, hl1]
        | true =>
          rcases h3 : updateTransactionStatus s1 xid TransactionStatus.committed with ⟨e3, s3⟩
          cases e3 with
          | some e =>
            have hl3 : listFinish s3 = listFinish s1 := by
              have h0 := updStatus_listFinish s1 xid TransactionStatus.committed
              rw [h3] at h0
              exact h0
            rw [commit_eq_updfault hg h2 hall h3]
            rw [hl3, hl1]
          | none =>
            rcases h4 : recordFinishTime s3 xid now with ⟨e4, s4⟩
            rw [commit_eq_ok hg h2 hall h3 h4] at hfail
            simp at hfail
      · rw [commit_eq_badstatus hg hst]
  · -- successful fault-free Commit stamps status and finishTime
    intro hf hok
    cases hg : getTransactionStatus s xid with
    | none => rw [commit_eq_notfound hg] at hok; simp at hok
    | some st =>
      by_cases hst : st = TransactionStatus.prepared
      · subst hst
        rcases h2 : commitLoop xid c.participants s with ⟨results, ps2, s1⟩
        have hf1 : s1.faults = [] := by
          have h0 := commitLoop_faults_nil xid c.participants s hf
          rw [h2] at h0
          exact h0
        have ht1 : s1.txs = s.txs := by
          have h0 := commitLoop_txs xid c.participants s
          rw [h2] at h0
          exact h0
        have hany1 : s1.txs.any (fun t => t.xid == xid) = true := by
          rw [ht1]
          exact any_of_getStatus hg
        cases hall : results.all (fun r => r.success) with
        | false =>
          rcases h3 : updateTransactionStatus s1 xid TransactionStatus.failed with ⟨e3, s3⟩
          rw [commit_eq_fail hg h2 hall h3] at hok
          simp at hok
        | true =>
          rcases updThenFinish TransactionStatus.committed now hf1 hany1 with
            ⟨s3, s4, h3, h4, hst4, hfin4, -⟩
          rw [commit_eq_ok hg h2 hall h3 h4]
          exact ⟨hst4, hfin4⟩
      · rw [commit_eq_badstatus hg hst] at hok
        simp at hok
  · -- failing Rollback never touches finishTime
    intro hfail
    cases hg : getTransactionStatus s xid with
    | none => rw [rollback_eq_notfound hg]
    | some st =>
      by_cases hst : st = TransactionStatus.committed
      · subst hst
        rw [rollback_eq_committed hg]
      · rcases h2 : rollbackLoop xid c.participants s with ⟨results, ps2, s1⟩
        have hl1 : listFinish s1 = listFinish s := by
          apply listFinish_eq_of_txs
          have h0 := rollbackLoop_txs xid c.participants s
          rw [h2] at h0
          exact h0
        rcases h3 : updateTransactionStatus s1 xid TransactionStatus.rolledback with ⟨e3, s3⟩
        cases e3 with
        | some e =>
          have hl3 : listFinish s3 = listFinish s1 := by
            have h0 := updStatus_listFinish s1 xid TransactionStatus.rolledback
            rw [h3] at h0
            exact h0
          rw [rollback_eq_updfault hg hst h2 h3]
          rw [hl3, hl1]
        | none =>
          rcases h4 : recordFinishTime s3 xid now with ⟨e4, s4⟩
          rw [rollback_eq_ok hg hst h2 h3 h4] at hfail
          simp at hfail
  · -- successful fault-free Rollback stamps status and finishTime
    intro hf hok
    cases hg : getTransactionStatus s xid with
    | none => rw [rollback_eq_notfound hg] at hok; simp at hok
    | some st =>
      by_cases hst : st = TransactionStatus.committed
      · subst hst
        rw [rollback_eq_committed hg] at hok
        simp at hok
      · rcases h2 : rollbackLoop xid c.participants s with ⟨results, ps2, s1⟩
        have hf1 : s1.faults = [] := by
          have h0 := rollbackLoop_faults_nil xid c.participants s hf
          rw [h2] at h0
          exact h0
        have ht1 : s1.txs = s.txs := by
          have h0 := rollbackLoop_txs xid c.participants s
          rw [h2] at h0
          exact h0
        have hany1 : s1.txs.any (fun t => t.xid == xid) = true := by
          rw [ht1]
          exact any_of_getStatus hg
        rcases updThenFinish TransactionStatus.rolledback now hf1 hany1 with
          ⟨s3, s4, h3, h4, hst4, hfin4, -⟩
        rw [rollback_eq_ok hg hst h2 h3 h4]
        exact ⟨hst4, hfin4⟩
  · -- Begin creates the record with a null finishTime
    intro s1 hb
    rcases fault_cases s with ⟨e, fs, hfa⟩ | h1
    · rw [begin_eq_fault hfa] at hb
      cases hb
    · cases hany : s.txs.any (fun t => t.xid == xid) with
      | true =>
        rw [begin_eq_dup h1 hany] at hb
        cases hb
      | false =>
        rw [begin_eq_ok h1 hany] at hb
        have hs1 : s1 = { s with
            txs := s.txs ++ [{ xid := xid, status := TransactionStatus.created,
                               startTime := now, finishTime := none,
                               description := descr }],
            faults := s.faults.tail } := by
          exact (congrArg (fun z => z.2) hb).symm
        subst hs1
        unfold getFinishTime
        show ((s.txs ++ [_]).find? _).map _ = some none
        rw [find?_append_nomatch hany]
        simp [List.find?]

theorem C3_finishTime_discipline_witness :
    getTransactionStatus
        (coordNone.commit "x" 5 storePrepared).2.2 "x" = some TransactionStatus.committed
    ∧ getFinishTime (coordNone.commit "x" 5 storePrepared).2.2 "x" = some (some 5) :=
  (C3_finishTime_discipline coordNone "x" envAll 5 "d" storePrepared).2.2.1
    rfl (by decide)

theorem prepStep_noaction (xid : String) {env : String → Option (LocalTx × Option String)}
    {p : Participant} {s : DBState}
    (h1 : s.faults.headD none = none) (he : env p.name = none) :
    prepStep xid env p s =
      ({ success := false, err := some "no action defined for participant", message := "" },
       p,
       { s with
         parts := s.parts ++ [{ xid := xid, name := p.name,
                                status := ParticipantStatus.registered,
                                resourceID := p.resourceID }],
         faults := s.faults.tail }) := by
  cases hf : s.faults with
  | nil => simp [prepStep, Participant.register, DBState.popFault, hf, he]
  | cons f fs =>
    rw [hf] at h1
    simp only [List.headD_cons] at h1
    subst h1
    simp [prepStep, Participant.register, DBState.popFault, hf, he]

/-- C9 (counterexample): calling `Prepare` twice for the same xid registers
the same participant twice — two `(xid, name)` rows exist, refuting "at most
one participant record per (xid, name) ever exists across any sequence of
RegisterParticipant and Prepare calls". -/
theorem C9_duplicate_record_cex :
    dupRun2.2.2.parts.countP (fun r => r.xid == "x" && r.name == "a") = 2 := by
  decide

/-- C9 (amended): within a single `Prepare` call on a fault-free store with
no pre-existing rows for the xid and pairwise-distinct participant names, at
most one `(xid, name)` row is created per name; the store does not enforce
this across calls (repeated `Prepare` for one xid duplicates rows). -/
theorem C9_single_prepare_unique (c : TransactionCoordinator) (xid : String)
    (env : String → Option (LocalTx × Option String)) (s : DBState)
    (hnd : (c.participants.map (fun p => p.name)).Nodup)
    (hf : s.faults = [])
    (h0 : s.parts.countP (fun r => r.xid == xid) = 0) :
    ∀ nm, (c.prepare xid env s).2.2.parts.countP
        (fun r => r.xid == xid && r.name == nm) ≤ 1 := by
  intro nm
  have hmono : ∀ (l : List TransactionParticipant),
      l.countP (fun r => r.xid == xid) = 0 →
      l.countP (fun r => r.xid == xid && r.name == nm) = 0 := by
    intro l hl
    have hle : l.countP (fun r => r.xid == xid && r.name == nm)
        ≤ l.countP (fun r => r.xid == xid) := by
      apply List.countP_mono_left
      intro r _ hb
      exact (Bool.and_eq_true _ _ |>.mp hb).1
    omega
  rcases h1 : updateTransactionStatus s xid TransactionStatus.preparing with ⟨e1, s1⟩
  have hp1 : s1.parts = s.parts := by
    have h0' := updStatus_parts s xid TransactionStatus.preparing
    rw [h1] at h0'
    exact h0'
  cases e1 with
  | some e =>
    rw [prepare_eq_fault h1]
    show s1.parts.countP _ ≤ 1
    rw [hp1, hmono s.parts h0]
    omega
  | none =>
    have hfa1 : s1.faults = [] := by
      have h0' := updStatus_faults_tail s xid TransactionStatus.preparing
      rw [h1, hf] at h0'
      simpa using h0'
    rcases h2 : prepareLoop xid env c.participants s1 with ⟨results, ps2, s2⟩
    have hp2 : s2.parts = s1.parts ++
        c.participants.map (fun p => { xid := xid, name := p.name,
                                       status := ParticipantStatus.registered,
                                       resourceID := p.resourceID }) := by
      have h0' := prepareLoop_parts_nofault xid env c.participants s1 hfa1
      rw [h2] at h0'
      exact h0'
    have hcnt2 : s2.parts.countP (fun r => r.xid == xid && r.name == nm) ≤ 1 := by
      rw [hp2, List.countP_append]
      rw [hp1, hmono s.parts h0]
      rw [List.countP_map]
      have hcount : c.participants.countP
          ((fun r => r.xid == xid && r.name == nm) ∘ (fun p =>
            ({ xid := xid, name := p.name, status := ParticipantStatus.registered,
               resourceID := p.resourceID } : TransactionParticipant)))
          = (c.participants.map (fun p => p.name)).count nm := by
        rw [List.count, List.countP_map]
        apply List.countP_congr
        intro p _
        show ((xid == xid) && (p.name == nm)) = true ↔ (p.name == nm) = true
        rw [beq_self_eq_true, Bool.true_and]
      rw [hcount]
      have := List.nodup_iff_count_le_one.mp hnd nm
      omega
    cases hall : results.all (fun r => r.success) with
    | true =>
      rcases h3 : updateTransactionStatus s2 xid TransactionStatus.prepared with ⟨e3, s3⟩
      have hp3 : s3.parts = s2.parts := by
        have h0' := updStatus_parts s2 xid TransactionStatus.prepared
        rw [h3] at h0'
        exact h0'
      cases e3 with
      | some e =>
        rw [prepare_eq_ok_fault h1 h2 hall h3]
        show s3.parts.countP _ ≤ 1
        rw [hp3]
        exact hcnt2
      | none =>
        rw [prepare_eq_ok h1 h2 hall h3]
        show s3.parts.countP _ ≤ 1
        rw [hp3]
        exact hcnt2
    | false =>
      rcases h3 : updateTransactionStatus s2 xid TransactionStatus.failed with ⟨e3, s3⟩
      have hp3 : s3.parts = s2.parts := by
        have h0' := updStatus_parts s2 xid TransactionStatus.failed
        rw [h3] at h0'
        exact h0'
      rw [prepare_eq_fail h1 h2 hall h3]
      show s3.parts.countP _ ≤ 1
      rw [hp3]
      exact hcnt2

theorem C9_single_prepare_unique_witness :
    (coordA.prepare "x" envAll storeX).2.2.parts.countP
        (fun r => r.xid == "x" && r.name == "a") ≤ 1 :=
  C9_single_prepare_unique coordA "x" envAll storeX (by decide) rfl (by decide) "a"

/-- C7 (counterexample): `Commit` on a prepared zero-participant transaction
with a store whose finish-time write fails still returns `(true, nil)` — the
fault entry is consumed (the write was attempted and failed) and `finishTime`
stays null, yet no error reaches the caller, refuting "every error from a
Transaction Log Store write performed during Begin/Prepare/Commit/Rollback is
propagated to the caller verbatim". -/
theorem C7_discarded_store_error_cex :
    (coordNone.commit "x" 5 storeFinishFault).1 = (true, none)
    ∧ getFinishTime (coordNone.commit "x" 5 storeFinishFault).2.2 "x" = some none
    ∧ (coordNone.commit "x" 5 storeFinishFault).2.2.faults = [] := by
  refine ⟨by decide, by decide, by decide⟩

/-- C7 (amended): store-write errors that gate a success result — the create
in `Begin`, the `preparing` update and the `prepared` update in `Prepare`,
the `committed` update in `Commit`, the `rolledback` update in `Rollback` —
are propagated to the caller verbatim; but the finish-time write errors in
`Commit`/`Rollback` and the `failed` status-write errors on the failure
branches of `Prepare`/`Commit` are discarded (only logged), leaving the
caller's result unchanged. -/
theorem C7_store_error_propagation (c cb : TransactionCoordinator) (xid : String)
    (env : String → Option (LocalTx × Option String)) (now : Nat) (descr : String) :
    (∀ s e fs, s.faults = some e :: fs → (c.prepare xid env s).1 = (false, some e))
    ∧ (∀ s e fs, s.faults = some e :: fs → (coordBegin s xid now descr).1 = some e)
    ∧ (∀ s e fs, cb.participants = [] →
        getTransactionStatus s xid = some TransactionStatus.prepared →
        s.faults = some e :: fs → (cb.commit xid now s).1 = (false, some e))
    ∧ (∀ s st e fs, cb.participants = [] → getTransactionStatus s xid = some st →
        st ≠ TransactionStatus.committed → s.faults = some e :: fs →
        (cb.rollback xid now s).1 = (false, some e))
    ∧ (∀ s e fs, cb.participants = [] →
        getTransactionStatus s xid = some TransactionStatus.prepared →
        s.faults = none :: some e :: fs → (cb.commit xid now s).1 = (true, none))
    ∧ (∀ s p e fs st0, c.participants = [p] → env p.name = none →
        getTransactionStatus s xid = some st0 →
        s.faults = none :: none :: some e :: fs →
        (c.prepare xid env s).1 = (false, some "no action defined for participant")
        ∧ getTransactionStatus (c.prepare xid env s).2.2 xid
            = some TransactionStatus.preparing) := by
  refine ⟨?_, ?_, ?_, ?_, ?_, ?_⟩
  · intro s e fs hfq
    rw [prepare_eq_fault (updStatus_fault hfq)]
  · intro s e fs hfq
    rw [begin_eq_fault hfq]
  · intro s e fs hp hg hfq
    have h2 : commitLoop xid cb.participants s = ([], [], s) := by rw [hp]; rfl
    rw [commit_eq_updfault hg h2 rfl (updStatus_fault hfq)]
  · intro s st e fs hp hg hne hfq
    have h2 : rollbackLoop xid cb.participants s = ([], [], s) := by rw [hp]; rfl
    rw [rollback_eq_updfault hg hne h2
      (updStatus_fault hfq)]
  · intro s e fs hp hg hfq
    have hh : s.faults.headD none = none := by rw [hfq]; rfl
    have hany := any_of_getStatus hg
    have h2 : commitLoop xid cb.participants s = ([], [], s) := by rw [hp]; rfl
    have h3 := updStatus_ok TransactionStatus.committed hh hany
    set s2 : DBState := { s with
      txs := s.txs.map (fun t =>
        if t.xid == xid then { t with status := TransactionStatus.committed } else t),
      faults := s.faults.tail } with hs2
    have hf2 : s2.faults = some e :: fs := by
      rw [hs2]
      show s.faults.tail = some e :: fs
      rw [hfq]
      rfl
    rw [commit_eq_ok hg h2 rfl h3 (finish_fault hf2)]
  · intro s p e fs st0 hp he hg hfq
    have hh : s.faults.headD none = none := by rw [hfq]; rfl
    have hany := any_of_getStatus hg
    have h1 := updStatus_ok TransactionStatus.preparing hh hany
    set s1 : DBState := { s with
      txs := s.txs.map (fun t =>
        if t.xid == xid then { t with status := TransactionStatus.preparing } else t),
      faults := s.faults.tail } with hs1
    have hf1 : s1.faults = none :: some e :: fs := by
      rw [hs1]
      show s.faults.tail = none :: some e :: fs
      rw [hfq]
      rfl
    have hh1 : s1.faults.headD none = none := by rw [hf1]; rfl
    have hstep := prepStep_noaction xid (s := s1) hh1 he
    have h2 : prepareLoop xid env c.participants s1 =
        ([{ success := false, err := some "no action defined for participant",
            message := "" }], [p],
         { s1 with
           parts := s1.parts ++ [{ xid := xid, name := p.name,
                                   status := ParticipantStatus.registered,
                                   resourceID := p.resourceID }],
           faults := s1.faults.tail }) := by
      rw [hp]
      simp [prepareLoop, hstep]
    set s2 : DBState := { s1 with
      parts := s1.parts ++ [{ xid := xid, name := p.name,
                              status := ParticipantStatus.registered,
                              resourceID := p.resourceID }],
      faults := s1.faults.tail } with hs2
    have hf2 : s2.faults = some e :: fs := by
      rw [hs2]
      show s1.faults.tail = some e :: fs
      rw [hf1]
      rfl
    rw [prepare_eq_fail h1 h2 rfl (updStatus_fault hf2)]
    refine ⟨rfl, ?_⟩
    have e1 : ({ s2 with faults := fs } : DBState).txs = s1.txs := by
      rw [hs2]
    have hq := getStatus_eq_of_txs e1 xid
    exact hq.trans (getStatus_upd_self h1)

theorem C7_store_error_propagation_witness :
    (coordNone.prepare "x" envAll storeBad).1 = (false, some "db down")
    ∧ (coordNone.commit "x" 5 storeFinishFault).1 = (true, none) := by
  constructor
  · exact (C7_store_error_propagation coordNone coordNone "x" envAll 5 "d").1
      storeBad "db down" [] rfl
  · exact (C7_store_error_propagation coordNone coordNone "x" envAll 5 "d").2.2.2.2.1
      storeFinishFault "log store unreachable" [] rfl (by decide) rfl

/-- C1: with the transaction record present and the coordinator's own two
status writes fault-free (`hf`, `hfin`), `Prepare` returns `(true, nil)` and
stores status `prepared` iff every registered participant's slice succeeded —
its `Register` write did not fault, an action was supplied for its name, and
the action succeeded (`partFailureErr … = none`); otherwise it stores status
`failed` and returns `(false, firstError)` where `firstError` is the failure
error of one of the failing participants (a missing action contributing
exactly the same kind of failing result as a prepare failure).  The `Nodup`
hypothesis keeps the list model aligned with the source's name-keyed result
map. -/
theorem C1_prepare_iff (c : TransactionCoordinator) (xid : String)
    (env : String → Option (LocalTx × Option String)) (s : DBState)
    (fs : List (Option String))
    (hnd : (c.participants.map (fun p => p.name)).Nodup)
    (hf : s.faults = none :: fs)
    (hfin : (fs.drop c.participants.length).headD none = none)
    (hx : s.txs.any (fun t => t.xid == xid) = true) :
    (((c.prepare xid env s).1 = (true, none)
        ∧ getTransactionStatus (c.prepare xid env s).2.2 xid
            = some TransactionStatus.prepared)
      ↔ (∀ i, i < c.participants.length →
          partFailureErr (fs.getD i none) (env ((c.participants.getD i dfltPart).name))
            = none))
    ∧ (¬ (∀ i, i < c.participants.length →
          partFailureErr (fs.getD i none) (env ((c.participants.getD i dfltPart).name))
            = none) →
        (c.prepare xid env s).1.1 = false
        ∧ getTransactionStatus (c.prepare xid env s).2.2 xid
            = some TransactionStatus.failed
        ∧ ∃ i, i < c.participants.length ∧ ∃ e,
            partFailureErr (fs.getD i none) (env ((c.participants.getD i dfltPart).name))
              = some e
            ∧ (c.prepare xid env s).1.2 = some e) := by
  have hh : s.faults.headD none = none := by rw [hf]; rfl
  have h1 := updStatus_ok TransactionStatus.preparing hh hx
  set s1 : DBState := { s with
    txs := s.txs.map (fun t =>
      if t.xid == xid then { t with status := TransactionStatus.preparing } else t),
    faults := s.faults.tail } with hs1
  have hfs1 : s1.faults = fs := by
    rw [hs1]
    show s.faults.tail = fs
    rw [hf]
    rfl
  have hany1 : s1.txs.any (fun t => t.xid == xid) = true := by
    rw [hs1]
    show (s.txs.map _).any _ = true
    rw [any_map_xid _ (statusMap_preserves_xid xid TransactionStatus.preparing) xid s.txs]
    exact hx
  rcases h2 : prepareLoop xid env c.participants s1 with ⟨results, ps2, s2⟩
  have hlen : results.length = c.participants.length := by
    have h0 := prepareLoop_len xid env c.participants s1
    rw [h2] at h0
    exact h0
  have htxs2 : s2.txs = s1.txs := by
    have h0 := prepareLoop_txs xid env c.participants s1
    rw [h2] at h0
    exact h0
  have hany2 : s2.txs.any (fun t => t.xid == xid) = true := by
    rw [htxs2]
    exact hany1
  have hfs2 : s2.faults = fs.drop c.participants.length := by
    have h0 := prepareLoop_faults xid env c.participants s1
    rw [h2, hfs1] at h0
    exact h0
  have hh2 : s2.faults.headD none = none := by
    rw [hfs2]
    exact hfin
  have hgetD : ∀ i, (hi : i < c.participants.length) →
      (results.getD i dfltRes).err
          = partFailureErr (fs.getD i none) (env ((c.participants.getD i dfltPart).name))
      ∧ (results.getD i dfltRes).success
          = (partFailureErr (fs.getD i none)
              (env ((c.participants.getD i dfltPart).name))).isNone := by
    intro i hi
    constructor
    · have ha := (prepareLoop_getD xid env c.participants s1 i hi).1
      rw [h2, hfs1] at ha
      exact ha
    · have ha := (prepareLoop_getD xid env c.participants s1 i hi).2
      rw [h2, hfs1] at ha
      exact ha
  have hall_iff : results.all (fun r => r.success) = true ↔
      (∀ i, i < c.participants.length →
        partFailureErr (fs.getD i none) (env ((c.participants.getD i dfltPart).name))
          = none) := by
    constructor
    · intro hAll i hi
      have hs := (all_success_iff_getD results).mp hAll i (by rw [hlen]; exact hi)
      rw [(hgetD i hi).2] at hs
      exact Option.isNone_iff_eq_none.mp hs
    · intro hA
      apply (all_success_iff_getD results).mpr
      intro i hi
      have hi' : i < c.participants.length := by rw [← hlen]; exact hi
      rw [(hgetD i hi').2, hA i hi']
      rfl
  by_cases hA : ∀ i, i < c.participants.length →
      partFailureErr (fs.getD i none) (env ((c.participants.getD i dfltPart).name)) = none
  · have hall := hall_iff.mpr hA
    have h3 := updStatus_ok TransactionStatus.prepared hh2 hany2
    rw [prepare_eq_ok h1 h2 hall h3]
    constructor
    · constructor
      · intro _
        exact hA
      · intro _
        exact ⟨rfl, getStatus_upd_self h3⟩
    · intro hcon
      exact absurd hA hcon
  · have hallF : results.all (fun r => r.success) = false := by
      cases hAB : results.all (fun r => r.success)
      · rfl
      · exact absurd (hall_iff.mp hAB) hA
    have h3 := updStatus_ok TransactionStatus.failed hh2 hany2
    rw [prepare_eq_fail h1 h2 hallF h3]
    have hmemb : ∃ i, i < c.participants.length ∧ ∃ e,
        partFailureErr (fs.getD i none) (env ((c.participants.getD i dfltPart).name))
          = some e
        ∧ firstFailingErr results = some e := by
      rcases firstFailingErr_spec results hallF with ⟨r, hrmem, hrfail, hrerr⟩
      rcases mem_exists_getD dfltRes results r hrmem with ⟨i, hilt, hgd⟩
      have hi' : i < c.participants.length := by rw [← hlen]; exact hilt
      have h5 := (hgetD i hi').1
      have h6 := (hgetD i hi').2
      rw [hgd] at h5 h6
      rw [hrfail] at h6
      cases hpf : partFailureErr (fs.getD i none)
          (env ((c.participants.getD i dfltPart).name)) with
      | none =>
        rw [hpf] at h6
        cases h6
      | some e =>
        refine ⟨i, hi', e, hpf, ?_⟩
        rw [hrerr, h5, hpf]
    constructor
    · constructor
      · intro hcon
        have hq := hcon.1
        simp at hq
      · intro hcon
        exact absurd hcon hA
    · intro _
      exact ⟨rfl, getStatus_upd_self h3, hmemb⟩

theorem C1_prepare_iff_witness :
    ((coordA.prepare "x" envAll store1F).1 = (true, none)
      ∧ getTransactionStatus (coordA.prepare "x" envAll store1F).2.2 "x"
          = some TransactionStatus.prepared) :=
  ((C1_prepare_iff coordA "x" envAll store1F [] (by decide) rfl rfl (by decide)).1).mpr
    (by
      intro i hi
      have h0 : i = 0 := by
        simp only [coordA] at hi
        simp at hi
        omega
      subst h0
      decide)

end DistributeTx
